import Mathlib

/-!
Shallow embedding of the import/export reconciliation engine of the
Dune Companion desktop application.

The definitions below are translated from
  src/app/services/import_export_service.py  (codecs, markdown scanner,
    reconciliation per merge strategy), and
  src/app/data/crud.py                       (store operations), with the
    sqlite schema of src/app/data/database.py (unique names, foreign keys
    with ON DELETE CASCADE on recipe_ingredient, UNIQUE(recipe_id,
    resource_id)).

Strings are processed at the character-list level; each helper mirrors the
Python string primitive used by the source.  Database timestamps
(created_at / updated_at) are not modelled: every property below is about
the other columns, and the specification itself excludes timestamps.
-/

namespace Dune

/-- Whitespace test used by the model of Python str.strip / str.split(). -/
def isSpaceChar (c : Char) : Bool :=
  c = ' ' || c = '\t' || c = '\n' || c = '\r'

/-- Drop leading whitespace (half of Python str.strip). -/
def stripLeft : List Char → List Char
  | [] => []
  | c :: cs => if isSpaceChar c then stripLeft cs else c :: cs

/-- Python str.strip(): drop leading and trailing whitespace. -/
def pyStrip (s : List Char) : List Char :=
  ((stripLeft ((stripLeft s).reverse)).reverse)

/-- Python str.isdigit(): nonempty and all characters are digits. -/
def pyIsDigit (s : List Char) : Bool :=
  !s.isEmpty && s.all Char.isDigit

/-- Value of a digit string, as produced by Python int() on an isdigit string. -/
def digitsToNat (s : List Char) : Nat :=
  s.foldl (fun a c => a * 10 + (c.toNat - '0'.toNat)) 0

/-- Python s.split(sep, 1) for a one-character separator: the pieces before
and after the first occurrence, or none when the separator is absent
(in which case Python returns the one-element list [s]). -/
def splitFirst (sep : Char) : List Char → Option (List Char × List Char)
  | [] => none
  | d :: ds =>
    if d = sep then some ([], ds)
    else
      match splitFirst sep ds with
      | none => none
      | some (a, b) => some (d :: a, b)

/-- First whitespace-separated token of Python s.split(); none when the
string holds no token (where Python s.split()[0] raises IndexError). -/
def firstToken (s : List Char) : Option (List Char) :=
  let t := stripLeft s
  if t.isEmpty then none else some (t.takeWhile (fun c => !isSpaceChar c))

/-- Key normalisation of the markdown bullet scanner
(import_export_service.py line 493): lowercase then spaces to underscores. -/
def normalizeKey (s : List Char) : List Char :=
  (s.map Char.toLower).map (fun c => if c = ' ' then '_' else c)

/-- A decoded markdown recipe ingredient (a name/quantity pair appended at
import_export_service.py line 561). -/
structure MdIngredient where
  name : String
  quantity : Nat
deriving DecidableEq

/-- The pending markdown item: the Python dict built by _import_markdown.
A field holding none models a key that is absent or has value None; the two
are indistinguishable to the downstream import helpers. -/
structure MdItem where
  name : String
  category : Option String := none
  rarity : Option String := none
  description : Option String := none
  source_locations : Option String := none
  icon_path : Option String := none
  discovered : Option Int := none
  output_item_name : Option String := none
  output_quantity : Option Int := none
  crafting_time_seconds : Option Int := none
  required_station : Option String := none
  skill_requirement : Option String := none
  ingredients : Option (List MdIngredient) := none
deriving DecidableEq

/-- The two recognised level-2 sections of the markdown decoder. -/
inductive MdSection
  | resources
  | recipes
deriving DecidableEq

/-- State of the single forward scan of _import_markdown: current section,
pending item, and the two output accumulators. -/
structure MdState where
  currentSection : Option MdSection
  currentItem : Option MdItem
  resourcesData : List MdItem
  recipesData : List MdItem
deriving DecidableEq

/-- Ingredient value decoding, import_export_service.py lines 545-563:
split once at the first x; a digits prefix gives an explicit quantity; a
value with no x is a bare name with quantity 1; a value whose part before
the first x is not all digits is logged and skipped (none), as is an empty
resulting name. -/
def parseIngredientValue (value : List Char) : Option MdIngredient :=
  match splitFirst 'x' value with
  | some (a, b) =>
    if pyIsDigit (pyStrip a) then
      let nm := pyStrip b
      if nm.isEmpty then none
      else some ⟨String.mk nm, digitsToNat (pyStrip a)⟩
    else
      none
  | none =>
    let nm := pyStrip value
    if nm.isEmpty then none else some ⟨String.mk nm, 1⟩

/-- Resource-section bullet dispatch, import_export_service.py lines 501-516. -/
def applyResourceBullet (item : MdItem) (finalKey value : List Char) : MdItem :=
  if finalKey = "category".data then { item with category := some (String.mk value) }
  else if finalKey = "rarity".data then { item with rarity := some (String.mk value) }
  else if finalKey = "description".data then { item with description := some (String.mk value) }
  else if finalKey = "source_locations".data then { item with source_locations := some (String.mk value) }
  else if finalKey = "icon_path".data then { item with icon_path := some (String.mk value) }
  else if finalKey = "name".data then { item with name := String.mk value }
  else if finalKey = "discovered".data then
    { item with discovered := some (if pyIsDigit value then (digitsToNat value : Int) else 0) }
  else item

/-- Recipe-section bullet dispatch, import_export_service.py lines 518-563. -/
def applyRecipeBullet (item : MdItem) (finalKey value : List Char) : MdItem :=
  if finalKey = "output".data then
    match splitFirst 'x' value with
    | some (a, b) =>
      if pyIsDigit (pyStrip a) then
        { item with output_quantity := some (digitsToNat (pyStrip a) : Int),
                    output_item_name := some (String.mk (pyStrip b)) }
      else
        { item with output_item_name := some (String.mk value), output_quantity := some 1 }
    | none =>
      { item with output_item_name := some (String.mk value), output_quantity := some 1 }
  else if finalKey = "station".data then { item with required_station := some (String.mk value) }
  else if finalKey = "time".data then
    match firstToken value with
    | none => item   -- value.split()[0] raises IndexError; the line is skipped
    | some t =>
      { item with crafting_time_seconds := some (if pyIsDigit t then (digitsToNat t : Int) else 0) }
  else if finalKey = "description".data then { item with description := some (String.mk value) }
  else if finalKey = "category".data then { item with category := some (String.mk value) }
  else if finalKey = "skill_required".data || finalKey = "skill_requirement".data then
    { item with skill_requirement := some (String.mk value) }
  else if finalKey = "icon_path".data then { item with icon_path := some (String.mk value) }
  else if finalKey = "discovered".data then
    { item with discovered := some (if pyIsDigit value then (digitsToNat value : Int) else 0) }
  else if finalKey = "ingredient".data || finalKey = "ingredients".data then
    match parseIngredientValue value with
    | none => item
    | some ing => { item with ingredients := some ((item.ingredients.getD []) ++ [ing]) }
  else item

/-- Bullet-line processing, import_export_service.py lines 471-568: split at
the first colon, normalise the key (strip trailing colon and bold or italic
markers, lowercase, spaces to underscores), then dispatch per section. -/
def processBullet (st : MdState) (item : MdItem) (content : List Char) : MdState :=
  match splitFirst ':' content with
  | none => st   -- malformed key-value line: logged and skipped
  | some (rawKey, rest) =>
    let value := pyStrip rest
    let pk0 := pyStrip rawKey
    let pk1 := if List.isSuffixOf ":".data pk0 then pk0.dropLast else pk0
    let pk2 :=
      if List.isPrefixOf "**".data pk1 && List.isSuffixOf "**".data pk1 && pk1.length ≥ 4 then
        ((pk1.drop 2).dropLast).dropLast
      else if List.isPrefixOf "*".data pk1 && List.isSuffixOf "*".data pk1 && pk1.length ≥ 2 then
        (pk1.drop 1).dropLast
      else pk1
    let finalKey := normalizeKey (pyStrip pk2)
    if finalKey.isEmpty then st   -- empty key after processing: logged and skipped
    else
      match st.currentSection with
      | some MdSection.resources => { st with currentItem := some (applyResourceBullet item finalKey value) }
      | some MdSection.recipes => { st with currentItem := some (applyRecipeBullet item finalKey value) }
      | none => st

/-- One line of the forward scan of _import_markdown (lines 435-568).
Note the Resources-heading branch: the source assigns current_section
before its defensive flush test, so that test can never fire and any
pending item is discarded there. -/
def mdStep (st : MdState) (rawLine : String) : MdState :=
  let line := pyStrip rawLine.data
  if line.isEmpty then st
  else if List.isPrefixOf "## Resources".data line then
    -- lines 440-448: current_section is assigned first, so the inner
    -- (current_section == "recipes") flush test is always false
    { st with currentSection := some MdSection.resources, currentItem := none }
  else if List.isPrefixOf "## Crafting Recipes".data line then
    match st.currentItem, st.currentSection with
    | some item, some MdSection.resources =>
      { st with resourcesData := st.resourcesData ++ [item],
                currentSection := some MdSection.recipes, currentItem := none }
    | _, _ =>
      { st with currentSection := some MdSection.recipes, currentItem := none }
  else if List.isPrefixOf "### ".data line then
    let st1 :=
      match st.currentItem, st.currentSection with
      | some item, some MdSection.resources => { st with resourcesData := st.resourcesData ++ [item] }
      | some item, some MdSection.recipes => { st with recipesData := st.recipesData ++ [item] }
      | _, _ => st
    let itemName := String.mk (pyStrip (line.drop 4))
    match st.currentSection with
    | some MdSection.recipes =>
      { st1 with currentItem := some { name := itemName, ingredients := some [] } }
    | _ =>
      { st1 with currentItem := some { name := itemName } }
  else if List.isPrefixOf "- ".data line then
    match st.currentItem with
    | none => st
    | some item => processBullet st item (line.drop 2)
  else st

/-- Initial scanner state. -/
def mdInit : MdState := ⟨none, none, [], []⟩

/-- The whole markdown decode (lines 429-575): fold the scanner over the
lines, then flush any still-pending item into the list of the current
section at end of input. -/
def parseMarkdownLines (lines : List String) : List MdItem × List MdItem :=
  let fin := lines.foldl mdStep mdInit
  match fin.currentItem, fin.currentSection with
  | some item, some MdSection.resources => (fin.resourcesData ++ [item], fin.recipesData)
  | some item, some MdSection.recipes => (fin.resourcesData, fin.recipesData ++ [item])
  | _, _ => (fin.resourcesData, fin.recipesData)

/-! ## Store model (tables of src/app/data/database.py) -/

/-- A row of the resource table (timestamps not modelled). -/
structure Resource where
  id : Nat
  name : String
  description : Option String
  rarity : Option String
  category : Option String
  source_locations : Option String
  icon_path : Option String
  discovered : Int
deriving DecidableEq

/-- A row of the crafting_recipe table (timestamps not modelled). -/
structure CraftingRecipe where
  id : Nat
  name : String
  description : Option String
  output_item_name : String
  output_quantity : Int
  crafting_time_seconds : Option Int
  required_station : Option String
  skill_requirement : Option String
  icon_path : Option String
  discovered : Int
deriving DecidableEq

/-- A row of the recipe_ingredient table (its own surrogate id not modelled). -/
structure IngredientRow where
  recipe_id : Nat
  resource_id : Nat
  quantity : Int
deriving DecidableEq

/-- The persisted store: the three tables plus the per-table autoincrement
counters for fresh row ids. -/
structure Store where
  resources : List Resource
  recipes : List CraftingRecipe
  recipeIngredients : List IngredientRow
  nextResourceId : Nat
  nextRecipeId : Nat
deriving DecidableEq

/-- The ingredient rows owned by one recipe id. -/
def ingredientRowsOf (s : Store) (rid : Nat) : List IngredientRow :=
  s.recipeIngredients.filter (fun row => row.recipe_id = rid)

/-- Store well-formedness, guaranteed by the sqlite schema: ids unique per
table (PRIMARY KEY), names unique per table (UNIQUE), ids below the
autoincrement counters, and ingredient rows referencing recipe ids below
the counter. -/
def Store.WF (s : Store) : Prop :=
  (s.resources.map Resource.id).Nodup ∧
  (s.recipes.map CraftingRecipe.id).Nodup ∧
  (s.resources.map Resource.name).Nodup ∧
  (s.recipes.map CraftingRecipe.name).Nodup ∧
  (∀ r ∈ s.resources, r.id < s.nextResourceId) ∧
  (∀ r ∈ s.recipes, r.id < s.nextRecipeId) ∧
  (∀ row ∈ s.recipeIngredients, row.recipe_id < s.nextRecipeId)

instance (s : Store) : Decidable s.WF := by
  unfold Store.WF; infer_instance

/-! ## CRUD layer (src/app/data/crud.py) -/

/-- crud.get_resource_by_name: first row with the given name. -/
def getResourceByName (s : Store) (name : String) : Option Resource :=
  s.resources.find? (fun r => r.name = name)

/-- crud.get_resource_by_id. -/
def getResourceById (s : Store) (rid : Nat) : Option Resource :=
  s.resources.find? (fun r => r.id = rid)

/-- crud.create_resource (lines 105-142): refuse a duplicate name, else
insert a fresh row. -/
def createResource (s : Store) (name : String)
    (description rarity category source_locations icon_path : Option String)
    (discovered : Int) : Option Resource × Store :=
  if (getResourceByName s name).isSome then (none, s)
  else
    let r : Resource :=
      ⟨s.nextResourceId, name, description, rarity, category, source_locations, icon_path, discovered⟩
    (some r, { s with resources := s.resources ++ [r], nextResourceId := s.nextResourceId + 1 })

/-- Keyword arguments of crud.update_resource; none models an argument left
at its None default (the field is then not written). -/
structure ResourceUpdate where
  name : Option String := none
  description : Option String := none
  rarity : Option String := none
  category : Option String := none
  source_locations : Option String := none
  icon_path : Option String := none
  discovered : Option Int := none
deriving DecidableEq

/-- The row update built by crud.update_resource lines 218-246: only
non-None arguments are written to their columns. -/
def applyResourceUpdate (u : ResourceUpdate) (r : Resource) : Resource :=
  { r with
    name := match u.name with | none => r.name | some v => v
    description := match u.description with | none => r.description | some v => some v
    rarity := match u.rarity with | none => r.rarity | some v => some v
    category := match u.category with | none => r.category | some v => some v
    source_locations := match u.source_locations with | none => r.source_locations | some v => some v
    icon_path := match u.icon_path with | none => r.icon_path | some v => some v
    discovered := match u.discovered with | none => r.discovered | some v => v }

/-- Rename pre-check of crud.update_resource lines 218-225: abort when the
new name belongs to a different existing resource. -/
def resourceNameConflict (s : Store) (rid : Nat) (u : ResourceUpdate) : Bool :=
  match u.name with
  | none => false
  | some newName =>
    match getResourceById s rid with
    | none => false
    | some cur =>
      if cur.name = newName then false
      else
        match getResourceByName s newName with
        | none => false
        | some ex => ex.id ≠ rid

/-- crud.update_resource (lines 199-279).  The no-fields early return at
line 250 is commented out in the source, so even an all-None update runs
the SQL UPDATE (touching only updated_at, which is not modelled); a zero
rowcount (unknown id) yields None with the store unchanged. -/
def updateResource (s : Store) (rid : Nat) (u : ResourceUpdate) : Option Resource × Store :=
  if resourceNameConflict s rid u then (none, s)
  else if (getResourceById s rid).isNone then (none, s)
  else
    let resources' := s.resources.map (fun r => if r.id = rid then applyResourceUpdate u r else r)
    let s' := { s with resources := resources' }
    (getResourceById s' rid, s')

/-- crud.delete_resource (lines 281-300); ON DELETE CASCADE removes the
ingredient rows that reference the resource. -/
def deleteResource (s : Store) (rid : Nat) : Bool × Store :=
  ((getResourceById s rid).isSome,
   { s with resources := s.resources.filter (fun r => ¬ r.id = rid),
            recipeIngredients := s.recipeIngredients.filter (fun row => ¬ row.resource_id = rid) })

/-- crud.get_crafting_recipe_by_id. -/
def getCraftingRecipeById (s : Store) (rid : Nat) : Option CraftingRecipe :=
  s.recipes.find? (fun r => r.id = rid)

/-- crud.get_crafting_recipe_by_name (lines 423-443): find the id by name,
then delegate to the by-id fetch. -/
def getCraftingRecipeByName (s : Store) (name : String) : Option CraftingRecipe :=
  match s.recipes.find? (fun r => r.name = name) with
  | none => none
  | some row => getCraftingRecipeById s row.id

/-- Constraint check for inserting an ingredient set on a given recipe:
the sqlite schema enforces FOREIGN KEY (resource_id) and
UNIQUE(recipe_id, resource_id); a violating insert raises and the whole
operation rolls back.  The list carries (resource_id, quantity) pairs. -/
def ingredientInsertOk (s : Store) (l : List (Nat × Int)) : Bool :=
  l.all (fun p => (getResourceById s p.1).isSome) && (l.map Prod.fst).Nodup

/-- crud.create_crafting_recipe (lines 303-380): refuse a duplicate name;
insert the recipe row and its ingredient rows in one transaction, rolling
everything back when an ingredient insert violates a constraint. -/
def createCraftingRecipe (s : Store) (name output_item_name : String)
    (output_quantity : Int) (description : Option String)
    (crafting_time_seconds : Option Int)
    (required_station skill_requirement icon_path : Option String)
    (discovered : Int) (ingredients : List (Nat × Int)) :
    Option CraftingRecipe × Store :=
  if (getCraftingRecipeByName s name).isSome then (none, s)
  else if ¬ ingredientInsertOk s ingredients then (none, s)
  else
    let r : CraftingRecipe :=
      ⟨s.nextRecipeId, name, description, output_item_name, output_quantity,
       crafting_time_seconds, required_station, skill_requirement, icon_path, discovered⟩
    (some r,
     { s with recipes := s.recipes ++ [r],
              recipeIngredients :=
                s.recipeIngredients ++ ingredients.map (fun p => ⟨r.id, p.1, p.2⟩),
              nextRecipeId := s.nextRecipeId + 1 })

/-- Keyword arguments of crud.update_crafting_recipe (the ingredients
argument is handled separately). -/
structure RecipeUpdate where
  name : Option String := none
  output_item_name : Option String := none
  output_quantity : Option Int := none
  description : Option String := none
  crafting_time_seconds : Option Int := none
  required_station : Option String := none
  skill_requirement : Option String := none
  icon_path : Option String := none
  discovered : Option Int := none
deriving DecidableEq

/-- Whether any scalar field is supplied (fields_to_update nonempty,
crud.py lines 510-544). -/
def hasRecipeScalarUpdate (u : RecipeUpdate) : Bool :=
  u.name.isSome || u.output_item_name.isSome || u.output_quantity.isSome ||
  u.description.isSome || u.crafting_time_seconds.isSome ||
  u.required_station.isSome || u.skill_requirement.isSome ||
  u.icon_path.isSome || u.discovered.isSome

/-- The row update of crud.update_crafting_recipe lines 510-544. -/
def applyRecipeUpdate (u : RecipeUpdate) (r : CraftingRecipe) : CraftingRecipe :=
  { r with
    name := match u.name with | none => r.name | some v => v
    output_item_name := match u.output_item_name with | none => r.output_item_name | some v => v
    output_quantity := match u.output_quantity with | none => r.output_quantity | some v => v
    description := match u.description with | none => r.description | some v => some v
    crafting_time_seconds := match u.crafting_time_seconds with | none => r.crafting_time_seconds | some v => some v
    required_station := match u.required_station with | none => r.required_station | some v => some v
    skill_requirement := match u.skill_requirement with | none => r.skill_requirement | some v => some v
    icon_path := match u.icon_path with | none => r.icon_path | some v => some v
    discovered := match u.discovered with | none => r.discovered | some v => v }

/-- Rename pre-check of crud.update_crafting_recipe lines 510-517. -/
def recipeNameConflict (s : Store) (rid : Nat) (u : RecipeUpdate) : Bool :=
  match u.name with
  | none => false
  | some newName =>
    match getCraftingRecipeById s rid with
    | none => false
    | some cur =>
      if cur.name = newName then false
      else
        match getCraftingRecipeByName s newName with
        | none => false
        | some ex => ex.id ≠ rid

/-- Python truthiness of the optional ingredient list: None and the empty
list are both falsy (crud.py line 557, not ingredients). -/
def ingredientsFalsy : Option (List (Nat × Int)) → Bool
  | none => true
  | some l => l.isEmpty

/-- crud.update_crafting_recipe (lines 488-590): optional scalar update by
id; when an ingredient list is supplied (even empty) the stored ingredient
set of that recipe is deleted and the new rows inserted, all in one
transaction; a missing recipe with no ingredient change, or a constraint
violation on the ingredient insert, yields None with no change. -/
def updateCraftingRecipe (s : Store) (rid : Nat) (u : RecipeUpdate)
    (ingredients : Option (List (Nat × Int))) : Option CraftingRecipe × Store :=
  if recipeNameConflict s rid u then (none, s)
  else
    let recipeExists := (getCraftingRecipeById s rid).isSome
    if hasRecipeScalarUpdate u && !recipeExists && ingredientsFalsy ingredients then
      (none, s)   -- rowcount 0, falsy ingredients, recipe absent: early None
    else
      let recipes' :=
        if hasRecipeScalarUpdate u then
          s.recipes.map (fun r => if r.id = rid then applyRecipeUpdate u r else r)
        else s.recipes
      match ingredients with
      | none =>
        let s' := { s with recipes := recipes' }
        (getCraftingRecipeById s' rid, s')
      | some l =>
        if (!recipeExists && !l.isEmpty) || !ingredientInsertOk s l then
          (none, s)   -- FOREIGN KEY or UNIQUE violation: transaction rolled back
        else
          let s' := { s with recipes := recipes',
                             recipeIngredients :=
                               s.recipeIngredients.filter (fun row => ¬ row.recipe_id = rid)
                                 ++ l.map (fun p => ⟨rid, p.1, p.2⟩) }
          (getCraftingRecipeById s' rid, s')

/-- crud.delete_crafting_recipe (lines 592-614); ingredient rows go with
the recipe via ON DELETE CASCADE. -/
def deleteCraftingRecipe (s : Store) (rid : Nat) : Bool × Store :=
  ((getCraftingRecipeById s rid).isSome,
   { s with recipes := s.recipes.filter (fun r => ¬ r.id = rid),
            recipeIngredients := s.recipeIngredients.filter (fun row => ¬ row.recipe_id = rid) })

/-! ## Service layer (src/app/services/import_export_service.py) -/

/-- Merge strategies of ImportExportService.import_data. -/
inductive MergeStrategy
  | update
  | replace
  | skip
deriving DecidableEq

/-- An incoming resource record (a decoded dict).  A field holding none
models a key that is absent or carries JSON null: the two are equivalent
downstream, since crud treats a None keyword argument as not supplied and
create_resource defaults match. -/
structure ResourceRecord where
  name : Option String := none
  description : Option String := none
  rarity : Option String := none
  category : Option String := none
  source_locations : Option String := none
  icon_path : Option String := none
  discovered : Option Int := none
deriving DecidableEq

/-- One entry of an incoming ingredient list
(import_export_service.py lines 261-276): a dict carrying resource_id and
quantity (resource_id possibly null), a dict carrying name and quantity,
or anything else (logged as invalid and skipped). -/
inductive IngInput
  | byId (resource_id : Option Nat) (quantity : Int)
  | byName (name : String) (quantity : Int)
  | malformed
deriving DecidableEq

/-- An incoming crafting-recipe record.  The ingredients field is doubly
optional because recipe_data.get with default [] distinguishes nothing,
but the spec-level claims do: none models a record with no ingredients
key. -/
structure RecipeRecord where
  name : Option String := none
  description : Option String := none
  output_item_name : Option String := none
  output_quantity : Option Int := none
  crafting_time_seconds : Option Int := none
  required_station : Option String := none
  skill_requirement : Option String := none
  icon_path : Option String := none
  discovered : Option Int := none
  ingredients : Option (List IngInput) := none
deriving DecidableEq

/-- Resolution of one ingredient reference
(import_export_service.py lines 261-276): pass an explicit resource_id
through unchanged, look a name up in the store (dropping the ingredient
when the resource is missing), drop a null resource_id or a malformed
entry.  The result pairs a resource id with a quantity. -/
def resolveIng (s : Store) : IngInput → Option (Nat × Int)
  | IngInput.byId none _ => none
  | IngInput.byId (some rid) q => some (rid, q)
  | IngInput.byName nm q =>
    match getResourceByName s nm with
    | some r => some (r.id, q)
    | none => none
  | IngInput.malformed => none

/-- parsed_ingredients of _import_recipes_data: resolve each entry,
keeping the successes in order. -/
def resolveIngs (s : Store) (l : List IngInput) : List (Nat × Int) :=
  l.filterMap (resolveIng s)

/-- update_payload of _import_resources_data line 214: every key except
id, name and the timestamps. -/
def resourceUpdatePayload (rec : ResourceRecord) : ResourceUpdate :=
  { name := none, description := rec.description, rarity := rec.rarity,
    category := rec.category, source_locations := rec.source_locations,
    icon_path := rec.icon_path, discovered := rec.discovered }

/-- update_payload of _import_recipes_data line 285: every key except id,
name, timestamps and ingredients. -/
def recipeUpdatePayload (rec : RecipeRecord) : RecipeUpdate :=
  { name := none, output_item_name := rec.output_item_name,
    output_quantity := rec.output_quantity, description := rec.description,
    crafting_time_seconds := rec.crafting_time_seconds,
    required_station := rec.required_station,
    skill_requirement := rec.skill_requirement, icon_path := rec.icon_path,
    discovered := rec.discovered }

/-- Per-record outcome as logged by _import_resources_data (the log is the
only observable channel for per-record outcomes). -/
inductive ResourceEvent
  | created (name : String)
  | updated (name : String)
  | replaced (name : String)
  | skippedExisting (name : String)
  | skippedNoName
deriving DecidableEq

/-- One record of _import_resources_data (lines 196-245): skip a missing
or empty name, look the name up, then dispatch on the merge strategy; a
missing name creates a new resource under every strategy. -/
def importResourceRecord (s : Store) (strat : MergeStrategy) (rec : ResourceRecord) :
    Store × List ResourceEvent :=
  match rec.name with
  | none => (s, [ResourceEvent.skippedNoName])
  | some n =>
    if n = "" then (s, [ResourceEvent.skippedNoName])
    else
      match getResourceByName s n with
      | some ex =>
        match strat with
        | MergeStrategy.update =>
          ((updateResource s ex.id (resourceUpdatePayload rec)).2, [ResourceEvent.updated n])
        | MergeStrategy.replace =>
          let s1 := (deleteResource s ex.id).2
          ((createResource s1 n rec.description rec.rarity rec.category
              rec.source_locations rec.icon_path (rec.discovered.getD 0)).2,
           [ResourceEvent.replaced n])
        | MergeStrategy.skip => (s, [ResourceEvent.skippedExisting n])
      | none =>
        ((createResource s n rec.description rec.rarity rec.category
            rec.source_locations rec.icon_path (rec.discovered.getD 0)).2,
         [ResourceEvent.created n])

/-- _import_resources_data over a batch, also collecting the per-record
log events in order. -/
def importResourcesData (recs : List ResourceRecord) (strat : MergeStrategy) (s : Store) :
    Store × List ResourceEvent :=
  match recs with
  | [] => (s, [])
  | rec :: rest =>
    let out := importResourceRecord s strat rec
    let out2 := importResourcesData rest strat out.1
    (out2.1, out.2 ++ out2.2)

/-- One record of _import_recipes_data (lines 247-328).  Under replace the
old recipe is deleted before the required-field check, so a record with a
missing or empty output_item_name leaves the recipe deleted and skips the
creation. -/
def importRecipeRecord (s : Store) (strat : MergeStrategy) (rec : RecipeRecord) : Store :=
  match rec.name with
  | none => s
  | some n =>
    if n = "" then s
    else
      let parsed := resolveIngs s (rec.ingredients.getD [])
      match getCraftingRecipeByName s n with
      | some ex =>
        match strat with
        | MergeStrategy.update =>
          (updateCraftingRecipe s ex.id (recipeUpdatePayload rec) (some parsed)).2
        | MergeStrategy.replace =>
          let s1 := (deleteCraftingRecipe s ex.id).2
          match rec.output_item_name with
          | none => s1   -- missing output_item_name: creation skipped, delete already done
          | some o =>
            if o = "" then s1
            else
              (createCraftingRecipe s1 n o (rec.output_quantity.getD 1) rec.description
                rec.crafting_time_seconds rec.required_station rec.skill_requirement
                rec.icon_path (rec.discovered.getD 0) parsed).2
        | MergeStrategy.skip => s
      | none =>
        match rec.output_item_name with
        | none => s
        | some o =>
          if o = "" then s
          else
            (createCraftingRecipe s n o (rec.output_quantity.getD 1) rec.description
              rec.crafting_time_seconds rec.required_station rec.skill_requirement
              rec.icon_path (rec.discovered.getD 0) parsed).2

/-- _import_recipes_data over a batch. -/
def importRecipesData (recs : List RecipeRecord) (strat : MergeStrategy) (s : Store) : Store :=
  match recs with
  | [] => s
  | rec :: rest => importRecipesData rest strat (importRecipeRecord s strat rec)

/-- The top-level dict shapes accepted by _import_json (lines 348-365):
the resources and crafting_recipes keys are each optional. -/
structure ImportBatch where
  resources : Option (List ResourceRecord) := none
  crafting_recipes : Option (List RecipeRecord) := none

/-- _import_json after a successful parse: import resources, then recipes,
and return True (per-record failures are only logged). -/
def importJson (b : ImportBatch) (strat : MergeStrategy) (s : Store) : Bool × Store :=
  let s1 := match b.resources with
            | none => s
            | some l => (importResourcesData l strat s).1
  let s2 := match b.crafting_recipes with
            | none => s1
            | some l => importRecipesData l strat s1
  (true, s2)

/-- The names carried by a resource batch (records without a name are
skipped by the importer). -/
def resourceRecordNames (l : List ResourceRecord) : List String :=
  l.filterMap (fun r => r.name)

/-- The names carried by a recipe batch. -/
def recipeRecordNames (l : List RecipeRecord) : List String :=
  l.filterMap (fun r => r.name)

/-- A markdown resource item handed to _import_resources_data: the dict
keys become the create/update keyword arguments. -/
def mdItemToResourceRecord (it : MdItem) : ResourceRecord :=
  { name := some it.name, description := it.description, rarity := it.rarity,
    category := it.category, source_locations := it.source_locations,
    icon_path := it.icon_path, discovered := it.discovered }

/-- A markdown recipe item fed to _import_recipes_data.  Every parsed
recipe item carries a category key (initialised at line 468), which
neither update_crafting_recipe nor create_crafting_recipe accepts as a
keyword: the call raises TypeError before touching the store, the
per-record handler logs it, and the record is skipped.  Under replace the
delete at line 296 has already committed when the creation raises. -/
def importMdRecipeItem (s : Store) (strat : MergeStrategy) (it : MdItem) : Store :=
  if it.name = "" then s
  else
    match getCraftingRecipeByName s it.name with
    | some ex =>
      match strat with
      | MergeStrategy.update => s    -- TypeError on the update call: record skipped
      | MergeStrategy.replace => (deleteCraftingRecipe s ex.id).2
      | MergeStrategy.skip => s
    | none => s                      -- TypeError on the create call: record skipped

/-- _import_markdown (lines 422-597): decode the lines; when nothing was
parsed, warn and return False with the store untouched; otherwise run the
two reconciliation passes and return True. -/
def importMarkdown (lines : List String) (strat : MergeStrategy) (s : Store) : Bool × Store :=
  let parsed := parseMarkdownLines lines
  if parsed.1.isEmpty && parsed.2.isEmpty then (false, s)
  else
    let s1 := if parsed.1.isEmpty then s
              else (importResourcesData (parsed.1.map mdItemToResourceRecord) strat s).1
    let s2 := if parsed.2.isEmpty then s1
              else parsed.2.foldl (fun st it => importMdRecipeItem st strat it) s1
    (true, s2)

/-! ## JSON codec (src/app/services/import_export_service.py lines 145-365) -/

/-- The JSON values exchanged by _export_json / _import_json. -/
inductive Json
  | null
  | str (s : String)
  | int (n : Int)
  | arr (elems : List Json)
  | obj (fields : List (String × Json))

/-- Python dict lookup on a decoded JSON object. -/
def jlookup : List (String × Json) → String → Option Json
  | [], _ => none
  | (k, v) :: rest, key => if k = key then some v else jlookup rest key

/-- A nullable string column serialised by json.dump. -/
def optStr : Option String → Json
  | none => Json.null
  | some s => Json.str s

/-- A nullable integer column serialised by json.dump. -/
def optInt : Option Int → Json
  | none => Json.null
  | some n => Json.int n

def asStr : Json → Option String
  | Json.str s => some s
  | _ => none

def asInt : Json → Option Int
  | Json.int n => some n
  | _ => none

def asArr : Json → Option (List Json)
  | Json.arr l => some l
  | _ => none

/-- The repr string that json.dump(default=str) produces for a
RecipeIngredient dataclass (the dataclass is not JSON-serialisable, so it
is stringified; the db surrogate id and resolved resource_name are not
modelled). -/
def reprRecipeIngredient (row : IngredientRow) : String :=
  "RecipeIngredient(recipe_id=" ++ toString row.recipe_id ++
  ", resource_id=" ++ toString row.resource_id ++
  ", quantity=" ++ toString row.quantity ++ ")"

/-- _resource_to_dict (lines 161-174), timestamps omitted. -/
def encodeResourceJson (r : Resource) : Json :=
  Json.obj
    [("id", Json.int r.id), ("name", Json.str r.name),
     ("category", optStr r.category), ("rarity", optStr r.rarity),
     ("description", optStr r.description),
     ("source_locations", optStr r.source_locations),
     ("icon_path", optStr r.icon_path), ("discovered", Json.int r.discovered)]

/-- _recipe_to_dict (lines 176-193), timestamps omitted.  The category key
is emitted as null (the CraftingRecipe dataclass has no category
attribute, so getattr defaults to None); the ingredients key holds the
stringified dataclasses. -/
def encodeRecipeJson (r : CraftingRecipe) (ings : List IngredientRow) : Json :=
  Json.obj
    [("id", Json.int r.id), ("name", Json.str r.name), ("category", Json.null),
     ("description", optStr r.description),
     ("output_item_name", Json.str r.output_item_name),
     ("output_quantity", Json.int r.output_quantity),
     ("crafting_time_seconds", optInt r.crafting_time_seconds),
     ("required_station", optStr r.required_station),
     ("skill_requirement", optStr r.skill_requirement),
     ("icon_path", optStr r.icon_path), ("discovered", Json.int r.discovered),
     ("ingredients", Json.arr (ings.map (fun row => Json.str (reprRecipeIngredient row))))]

/-- The full export document of _get_all_data + _export_json. -/
def encodeBatchJson (exportDate : String) (resources : List Resource)
    (recipes : List (CraftingRecipe × List IngredientRow)) : Json :=
  Json.obj
    [("metadata", Json.obj
        [("export_date", Json.str exportDate), ("app_version", Json.str "0.1.0"),
         ("total_resources", Json.int resources.length),
         ("total_recipes", Json.int recipes.length)]),
     ("resources", Json.arr (resources.map encodeResourceJson)),
     ("crafting_recipes", Json.arr (recipes.map (fun p => encodeRecipeJson p.1 p.2)))]

/-- The keys _import_resources_data reads from a decoded resource dict. -/
def decodeResourceRecord (j : Json) : ResourceRecord :=
  match j with
  | Json.obj fields =>
    { name := (jlookup fields "name").bind asStr,
      description := (jlookup fields "description").bind asStr,
      rarity := (jlookup fields "rarity").bind asStr,
      category := (jlookup fields "category").bind asStr,
      source_locations := (jlookup fields "source_locations").bind asStr,
      icon_path := (jlookup fields "icon_path").bind asStr,
      discovered := (jlookup fields "discovered").bind asInt }
  | _ => {}

/-- The shape test of _import_recipes_data lines 264-276 on one decoded
ingredient entry. -/
def decodeIngInput (j : Json) : IngInput :=
  match j with
  | Json.obj fields =>
    match jlookup fields "resource_id", jlookup fields "quantity" with
    | some rid, some q =>
      IngInput.byId ((asInt rid).map Int.toNat) ((asInt q).getD 0)
    | _, _ =>
      match (jlookup fields "name").bind asStr, (jlookup fields "quantity").bind asInt with
      | some nm, some q => IngInput.byName nm q
      | _, _ => IngInput.malformed
  | _ => IngInput.malformed

/-- The keys _import_recipes_data reads from a decoded recipe dict. -/
def decodeRecipeRecord (j : Json) : RecipeRecord :=
  match j with
  | Json.obj fields =>
    { name := (jlookup fields "name").bind asStr,
      description := (jlookup fields "description").bind asStr,
      output_item_name := (jlookup fields "output_item_name").bind asStr,
      output_quantity := (jlookup fields "output_quantity").bind asInt,
      crafting_time_seconds := (jlookup fields "crafting_time_seconds").bind asInt,
      required_station := (jlookup fields "required_station").bind asStr,
      skill_requirement := (jlookup fields "skill_requirement").bind asStr,
      icon_path := (jlookup fields "icon_path").bind asStr,
      discovered := (jlookup fields "discovered").bind asInt,
      ingredients := ((jlookup fields "ingredients").bind asArr).map (List.map decodeIngInput) }
  | _ => {}

/-- The record lists _import_json extracts from a decoded document
(key-presence tests at lines 354 and 357). -/
def decodeBatchJson (j : Json) : Option (List ResourceRecord) × Option (List RecipeRecord) :=
  match j with
  | Json.obj fields =>
    (((jlookup fields "resources").bind asArr).map (List.map decodeResourceRecord),
     ((jlookup fields "crafting_recipes").bind asArr).map (List.map decodeRecipeRecord))
  | _ => (none, none)

/-- The record a resource round-trips to: every scalar field of the row,
id and timestamps excluded from the comparison by the claim. -/
def resourceScalarRecord (r : Resource) : ResourceRecord :=
  { name := some r.name, description := r.description, rarity := r.rarity,
    category := r.category, source_locations := r.source_locations,
    icon_path := r.icon_path, discovered := some r.discovered }

/-- The record a recipe round-trips to: every scalar field of the row; the
ingredients key decodes to malformed entries because the export
stringified the dataclasses. -/
def recipeScalarRecord (r : CraftingRecipe) (ings : List IngredientRow) : RecipeRecord :=
  { name := some r.name, description := r.description,
    output_item_name := some r.output_item_name,
    output_quantity := some r.output_quantity,
    crafting_time_seconds := r.crafting_time_seconds,
    required_station := r.required_station,
    skill_requirement := r.skill_requirement, icon_path := r.icon_path,
    discovered := some r.discovered,
    ingredients := some (ings.map (fun _ => IngInput.malformed)) }

/-! ## Concrete fixtures used by counterexamples and witnesses -/

/-- A store holding one resource, one recipe and one ingredient row. -/
def iron : Resource := ⟨0, "Iron", none, none, none, none, none, 0⟩

def stillsuit : CraftingRecipe := ⟨0, "Stillsuit", none, "Stillsuit", 1, none, none, none, none, 0⟩

def sampleStore : Store := ⟨[iron], [stillsuit], [⟨0, 0, 2⟩], 1, 1⟩

/-- A store holding a single resource named Spice with category A. -/
def spiceStore : Store := ⟨[⟨0, "Spice", none, none, some "A", none, none, 0⟩], [], [], 1, 0⟩

/-- A recipe record whose only ingredient references a missing resource. -/
def bogusIngredientRec : RecipeRecord :=
  { name := some "Water Filter", output_item_name := some "Clean Water",
    ingredients := some [IngInput.byName "Bogus" 2] }

/-! ## Helper lemmas -/

/-- splitFirst finds nothing when the separator does not occur. -/
theorem splitFirst_eq_none_of_not_mem {sep : Char} :
    ∀ {l : List Char}, sep ∉ l → splitFirst sep l = none := by
  intro l
  induction l with
  | nil => intro _; rfl
  | cons c cs ih =>
    intro h
    have hc : ¬ c = sep := fun hh => h (hh ▸ List.mem_cons_self c cs)
    have hcs : sep ∉ cs := fun hh => h (List.mem_cons_of_mem c hh)
    simp [splitFirst, hc, ih hcs]

/-- find? along a map by a function that preserves the predicate. -/
theorem find?_map_of_pred_pres {α : Type _} (f : α → α) (p : α → Bool)
    (hp : ∀ a, p (f a) = p a) :
    ∀ (l : List α), (l.map f).find? p = (l.find? p).map f := by
  intro l
  induction l with
  | nil => rfl
  | cons x xs ih =>
    by_cases hx : p x
    · rw [List.map_cons, List.find?_cons_of_pos _ (by rw [hp]; exact hx),
        List.find?_cons_of_pos _ hx, Option.map_some']
    · rw [List.map_cons, List.find?_cons_of_neg _ (by rw [hp]; exact hx),
        List.find?_cons_of_neg _ hx, ih]

/-- In a list whose keys are nodup, searching for the key of a member
finds exactly that member. -/
theorem find?_key_of_mem {α κ : Type _} [DecidableEq κ] (key : α → κ) :
    ∀ {l : List α}, (l.map key).Nodup → ∀ {a : α}, a ∈ l →
      l.find? (fun b => key b = key a) = some a := by
  intro l
  induction l with
  | nil => intro _ a ha; cases ha
  | cons x xs ih =>
    intro h a ha
    have h' : (key x) ∉ (xs.map key) ∧ (xs.map key).Nodup := by
      rw [List.map_cons, List.nodup_cons] at h; exact h
    by_cases hx : key x = key a
    · rcases List.mem_cons.mp ha with rfl | hmem
      · rw [List.find?_cons_of_pos _ (by simp)]
      · exact absurd (by rw [hx]; exact List.mem_map_of_mem key hmem) h'.1
    · have ham : a ∈ xs := by
        rcases List.mem_cons.mp ha with rfl | hmem
        · exact absurd rfl hx
        · exact hmem
      rw [List.find?_cons_of_neg _ (by simpa using hx), ih h'.2 ham]

/-- find? over an append. -/
theorem find?_append {α : Type _} (p : α → Bool) :
    ∀ (l₁ l₂ : List α),
      (l₁ ++ l₂).find? p = match l₁.find? p with
                           | some a => some a
                           | none => l₂.find? p := by
  intro l₁ l₂
  induction l₁ with
  | nil => simp
  | cons x xs ih =>
    by_cases hx : p x
    · simp [List.find?_cons_of_pos _ hx]
    · simpa [List.find?_cons_of_neg _ hx] using ih

/-- Members of a list with nodup keys and distinct keys are distinct. -/
theorem key_ne_of_mem_of_ne {α κ : Type _} (key : α → κ) {l : List α}
    (h : (l.map key).Nodup) {a b : α} (ha : a ∈ l) (hb : b ∈ l) (hab : a ≠ b) :
    key a ≠ key b := by
  intro he
  exact hab (List.inj_on_of_nodup_map h ha hb he)

/-- A successful direct name lookup returns a member carrying that name. -/
theorem getResourceByName_some_spec {s : Store} {n : String} {ex : Resource}
    (h : getResourceByName s n = some ex) : ex ∈ s.resources ∧ ex.name = n := by
  refine ⟨List.mem_of_find?_eq_some h, ?_⟩
  have := List.find?_some h
  simpa using this

/-- A member makes the by-id resource lookup succeed. -/
theorem getResourceById_isSome_of_mem {s : Store} {r : Resource} (h : r ∈ s.resources) :
    (getResourceById s r.id).isSome := by
  unfold getResourceById
  exact List.find?_isSome.mpr ⟨r, h, by simp⟩

/-- A member makes the by-id recipe lookup succeed. -/
theorem getCraftingRecipeById_isSome_of_mem {s : Store} {r : CraftingRecipe}
    (h : r ∈ s.recipes) : (getCraftingRecipeById s r.id).isSome := by
  unfold getCraftingRecipeById
  exact List.find?_isSome.mpr ⟨r, h, by simp⟩

/-- With unique recipe ids, the two-step name lookup of
get_crafting_recipe_by_name returns a member carrying that name. -/
theorem getCraftingRecipeByName_some_spec {s : Store} {n : String} {ex : CraftingRecipe}
    (hids : (s.recipes.map CraftingRecipe.id).Nodup)
    (h : getCraftingRecipeByName s n = some ex) : ex ∈ s.recipes ∧ ex.name = n := by
  cases hfind : s.recipes.find? (fun r => r.name = n) with
  | none =>
    have hdef : getCraftingRecipeByName s n = none := by
      unfold getCraftingRecipeByName; rw [hfind]
    rw [hdef] at h; cases h
  | some row =>
    have hdef : getCraftingRecipeByName s n = getCraftingRecipeById s row.id := by
      unfold getCraftingRecipeByName; rw [hfind]
    rw [hdef] at h
    have hrowmem := List.mem_of_find?_eq_some hfind
    have hrowname : row.name = n := by simpa using List.find?_some hfind
    have hbyid : getCraftingRecipeById s row.id = some row := by
      unfold getCraftingRecipeById
      exact find?_key_of_mem CraftingRecipe.id hids hrowmem
    rw [hbyid] at h
    cases h
    exact ⟨hrowmem, hrowname⟩

/-- A failed two-step name lookup means no recipe row carries that name. -/
theorem getCraftingRecipeByName_none_find {s : Store} {n : String}
    (h : getCraftingRecipeByName s n = none) :
    s.recipes.find? (fun r => r.name = n) = none := by
  cases hfind : s.recipes.find? (fun r => r.name = n) with
  | none => rfl
  | some row =>
    have hdef : getCraftingRecipeByName s n = getCraftingRecipeById s row.id := by
      unfold getCraftingRecipeByName; rw [hfind]
    rw [hdef] at h
    have hrowmem := List.mem_of_find?_eq_some hfind
    have hs := getCraftingRecipeById_isSome_of_mem hrowmem
    rw [h] at hs
    cases hs

/-! ## Claim C3: section-boundary flushing in the markdown scanner -/

/-- Claim C3 counterexample: a pending recipe item is dropped, not
flushed, when a Resources heading follows the Crafting Recipes section.
The whole document parses to two empty lists, and the isolated step shows
the pending item vanishing while both output lists stay empty. -/
theorem c3_counterexample :
    parseMarkdownLines
        ["## Crafting Recipes", "### Stillsuit", "- Output: 1x Stillsuit", "## Resources"]
      = ([], []) ∧
    mdStep ⟨some MdSection.recipes, some { name := "Stillsuit", ingredients := some [] }, [], []⟩
        "## Resources"
      = ⟨some MdSection.resources, none, [], []⟩ := by
  decide

/-- Claim C3 as amended: a Crafting Recipes heading flushes a pending item
into the resources list when the previous section was Resources and then
switches section; a Resources heading switches the section and discards
any pending item without flushing it (its defensive flush branch tests
current_section after the assignment and can never fire), so a pending
recipe item preceding a Resources heading is dropped. -/
theorem c3_section_boundary_flush (st : MdState) (item : MdItem)
    (h : st.currentItem = some item) :
    (st.currentSection = some MdSection.resources →
      mdStep st "## Crafting Recipes"
        = { st with resourcesData := st.resourcesData ++ [item],
                    currentSection := some MdSection.recipes, currentItem := none }) ∧
    mdStep st "## Resources"
      = { st with currentSection := some MdSection.resources, currentItem := none } := by
  obtain ⟨sec, it, rd, cd⟩ := st
  have h' : it = some item := h
  subst h'
  constructor
  · intro hsec
    have hsec' : sec = some MdSection.resources := hsec
    subst hsec'
    rfl
  · rfl

/-- Claim C3 witness: the amended flushing behaviour at a concrete state
holding a pending resource item named Water. -/
theorem c3_witness :
    mdStep ⟨some MdSection.resources, some { name := "Water" }, [], []⟩ "## Crafting Recipes"
      = ⟨some MdSection.recipes, none, [{ name := "Water" }], []⟩ ∧
    mdStep ⟨some MdSection.resources, some { name := "Water" }, [], []⟩ "## Resources"
      = ⟨some MdSection.resources, none, [], []⟩ := by
  have h := c3_section_boundary_flush
    ⟨some MdSection.resources, some { name := "Water" }, [], []⟩ { name := "Water" } rfl
  exact ⟨h.1 rfl, h.2⟩

/-! ## Claim C5: ingredient multiplier parsing -/

/-- Claim C5 counterexample: the bare ingredient name Flux is not of the
digits-x-name form, yet it is not decoded as name Flux with quantity 1; it
is dropped, because the value splits at its internal x into a non-digit
prefix and the scanner logs and skips that shape.  The step level shows
the pending ingredient list staying empty. -/
theorem c5_counterexample :
    parseIngredientValue "Flux".data = none ∧
    parseIngredientValue "Flux".data ≠ some ⟨"Flux", 1⟩ ∧
    mdStep ⟨some MdSection.recipes, some { name := "Knife", ingredients := some [] }, [], []⟩
        "- Ingredient: Flux"
      = ⟨some MdSection.recipes, some { name := "Knife", ingredients := some [] }, [], []⟩ := by
  decide

/-- Claim C5 as amended: the value 3x Iron Ingot decodes to ingredient
Iron Ingot with quantity 3, and a value containing no x character (and
nonempty after stripping) decodes to the whole stripped value with
quantity 1; but a value containing an x whose prefix before the first x is
not all digits is logged and dropped rather than defaulted. -/
theorem c5_ingredient_value_parsing (value : List Char) :
    parseIngredientValue "3x Iron Ingot".data = some ⟨"Iron Ingot", 3⟩ ∧
    ('x' ∉ value → pyStrip value ≠ [] →
      parseIngredientValue value = some ⟨String.mk (pyStrip value), 1⟩) := by
  refine ⟨by decide, fun hx hne => ?_⟩
  unfold parseIngredientValue
  rw [splitFirst_eq_none_of_not_mem hx]
  cases hps : pyStrip value with
  | nil => exact absurd hps hne
  | cons a l => simp [hps]

/-- Claim C5 witness: the amended parse at the concrete bare name Spice. -/
theorem c5_witness :
    parseIngredientValue "3x Iron Ingot".data = some ⟨"Iron Ingot", 3⟩ ∧
    parseIngredientValue "Spice".data = some ⟨"Spice", 1⟩ := by
  have h := c5_ingredient_value_parsing "Spice".data
  exact ⟨h.1, h.2 (by decide) (by decide)⟩

/-! ## Claim C9: markdown import with zero parsed records -/

/-- Claim C9: importing markdown whose decode yields zero resource records
and zero recipe records returns False without touching the store. -/
theorem c9_empty_markdown_import (lines : List String) (strat : MergeStrategy) (s : Store)
    (h : parseMarkdownLines lines = ([], [])) :
    importMarkdown lines strat s = (false, s) := by
  simp [importMarkdown, h]

/-- Claim C9 witness: an empty file (no lines) and a file with no
recognised headings both return False on the sample store. -/
theorem c9_witness :
    importMarkdown [] MergeStrategy.update sampleStore = (false, sampleStore) ∧
    importMarkdown ["hello world"] MergeStrategy.replace sampleStore = (false, sampleStore) := by
  exact ⟨c9_empty_markdown_import [] MergeStrategy.update sampleStore (by decide),
         c9_empty_markdown_import ["hello world"] MergeStrategy.replace sampleStore (by decide)⟩

/-! ## Claim C6: JSON round trip of scalar fields -/

/-- Decoding a serialised nullable string column gives it back. -/
theorem asStr_optStr (o : Option String) : asStr (optStr o) = o := by
  cases o <;> rfl

/-- Decoding a serialised nullable integer column gives it back. -/
theorem asInt_optInt (o : Option Int) : asInt (optInt o) = o := by
  cases o <;> rfl

/-- Decoding a serialised string value. -/
theorem asStr_str (v : String) : asStr (Json.str v) = some v := rfl

/-- Decoding a serialised integer value. -/
theorem asInt_int (n : Int) : asInt (Json.int n) = some n := rfl

/-- A stringified ingredient entry fails the dict shape tests. -/
theorem decodeIngInput_str (v : String) : decodeIngInput (Json.str v) = IngInput.malformed := rfl

/-- Decoding the JSON encoding of a resource row recovers every scalar
field. -/
theorem decodeResourceRecord_encode (r : Resource) :
    decodeResourceRecord (encodeResourceJson r) = resourceScalarRecord r := by
  simp [decodeResourceRecord, encodeResourceJson, resourceScalarRecord, jlookup,
    asStr_optStr, asStr_str, asInt_int]

/-- Decoding the JSON encoding of a recipe row recovers every scalar
field; the stringified ingredient entries all decode as malformed. -/
theorem decodeRecipeRecord_encode (r : CraftingRecipe) (ings : List IngredientRow) :
    decodeRecipeRecord (encodeRecipeJson r ings) = recipeScalarRecord r ings := by
  simp [decodeRecipeRecord, encodeRecipeJson, recipeScalarRecord, jlookup,
    asStr_optStr, asInt_optInt, asStr_str, asInt_int, asArr, List.map_map,
    Function.comp, decodeIngInput_str]
  rw [show (decodeIngInput ∘ fun row => Json.str (reprRecipeIngredient row))
        = fun _ => IngInput.malformed from rfl]
  simp

/-- Claim C6: decoding the JSON encoding of a batch reproduces every
scalar field of every resource and every recipe (ids and timestamps are
store-assigned and outside the comparison; the ingredients cell decodes
to malformed entries because json.dump stringified the dataclasses, and
ingredients are not scalar fields of the claim). -/
theorem c6_json_round_trip (exportDate : String) (resources : List Resource)
    (recipes : List (CraftingRecipe × List IngredientRow)) :
    decodeBatchJson (encodeBatchJson exportDate resources recipes)
      = (some (resources.map resourceScalarRecord),
         some (recipes.map (fun p => recipeScalarRecord p.1 p.2))) := by
  simp [decodeBatchJson, encodeBatchJson, jlookup, asArr, List.map_map, Function.comp,
    decodeResourceRecord_encode, decodeRecipeRecord_encode]

/-! ## Claim C10: None arguments never touch stored columns -/

/-- update_resource either changes nothing or maps the row update over the
table, touching only the row with the target id. -/
theorem updateResource_resources_shape (s : Store) (rid : Nat) (u : ResourceUpdate) :
    (updateResource s rid u).2.resources = s.resources ∨
    (updateResource s rid u).2.resources
      = s.resources.map (fun r => if r.id = rid then applyResourceUpdate u r else r) := by
  unfold updateResource
  split_ifs with h1 h2
  · left; rfl
  · left; rfl
  · right; rfl

/-- update_crafting_recipe either changes no recipe row or maps the row
update over the table, touching only the row with the target id. -/
theorem updateCraftingRecipe_recipes_shape (s : Store) (rid : Nat) (u : RecipeUpdate)
    (ings : Option (List (Nat × Int))) :
    (updateCraftingRecipe s rid u ings).2.recipes = s.recipes ∨
    (updateCraftingRecipe s rid u ings).2.recipes
      = s.recipes.map (fun r => if r.id = rid then applyRecipeUpdate u r else r) := by
  simp only [updateCraftingRecipe]
  by_cases h1 : recipeNameConflict s rid u = true
  · rw [if_pos h1]; left; rfl
  · rw [if_neg h1]
    by_cases h2 : (hasRecipeScalarUpdate u && !(getCraftingRecipeById s rid).isSome
        && ingredientsFalsy ings) = true
    · rw [if_pos h2]; left; rfl
    · rw [if_neg h2]
      cases ings with
      | none =>
        dsimp only
        by_cases hs : hasRecipeScalarUpdate u = true
        · rw [if_pos hs]; right; rfl
        · rw [if_neg hs]; left; rfl
      | some l =>
        dsimp only
        by_cases h3 : ((!(getCraftingRecipeById s rid).isSome && !l.isEmpty)
            || !ingredientInsertOk s l) = true
        · rw [if_pos h3]; left; rfl
        · rw [if_neg h3]
          by_cases hs : hasRecipeScalarUpdate u = true
          · rw [if_pos hs]; right; rfl
          · rw [if_neg hs]; left; rfl

/-- Claim C10: in update_resource and update_crafting_recipe only non-None
arguments are written; a None argument leaves the column unchanged, and no
update can turn a non-null stored column into null.  The two shape
disjunctions pin the store-level writes to the per-row updates. -/
theorem c10_none_fields_untouched (s : Store) (rid : Nat) (u : ResourceUpdate)
    (v : RecipeUpdate) (ings : Option (List (Nat × Int))) :
    ((updateResource s rid u).2.resources = s.resources ∨
      (updateResource s rid u).2.resources
        = s.resources.map (fun r => if r.id = rid then applyResourceUpdate u r else r)) ∧
    (∀ r : Resource,
      (u.name = none → (applyResourceUpdate u r).name = r.name) ∧
      (u.description = none → (applyResourceUpdate u r).description = r.description) ∧
      (u.rarity = none → (applyResourceUpdate u r).rarity = r.rarity) ∧
      (u.category = none → (applyResourceUpdate u r).category = r.category) ∧
      (u.source_locations = none → (applyResourceUpdate u r).source_locations = r.source_locations) ∧
      (u.icon_path = none → (applyResourceUpdate u r).icon_path = r.icon_path) ∧
      (u.discovered = none → (applyResourceUpdate u r).discovered = r.discovered) ∧
      ((applyResourceUpdate u r).description = none → r.description = none) ∧
      ((applyResourceUpdate u r).rarity = none → r.rarity = none) ∧
      ((applyResourceUpdate u r).category = none → r.category = none) ∧
      ((applyResourceUpdate u r).source_locations = none → r.source_locations = none) ∧
      ((applyResourceUpdate u r).icon_path = none → r.icon_path = none)) ∧
    ((updateCraftingRecipe s rid v ings).2.recipes = s.recipes ∨
      (updateCraftingRecipe s rid v ings).2.recipes
        = s.recipes.map (fun r => if r.id = rid then applyRecipeUpdate v r else r)) ∧
    (∀ r : CraftingRecipe,
      (v.name = none → (applyRecipeUpdate v r).name = r.name) ∧
      (v.output_item_name = none → (applyRecipeUpdate v r).output_item_name = r.output_item_name) ∧
      (v.output_quantity = none → (applyRecipeUpdate v r).output_quantity = r.output_quantity) ∧
      (v.description = none → (applyRecipeUpdate v r).description = r.description) ∧
      (v.crafting_time_seconds = none → (applyRecipeUpdate v r).crafting_time_seconds = r.crafting_time_seconds) ∧
      (v.required_station = none → (applyRecipeUpdate v r).required_station = r.required_station) ∧
      (v.skill_requirement = none → (applyRecipeUpdate v r).skill_requirement = r.skill_requirement) ∧
      (v.icon_path = none → (applyRecipeUpdate v r).icon_path = r.icon_path) ∧
      (v.discovered = none → (applyRecipeUpdate v r).discovered = r.discovered) ∧
      ((applyRecipeUpdate v r).description = none → r.description = none) ∧
      ((applyRecipeUpdate v r).crafting_time_seconds = none → r.crafting_time_seconds = none) ∧
      ((applyRecipeUpdate v r).required_station = none → r.required_station = none) ∧
      ((applyRecipeUpdate v r).skill_requirement = none → r.skill_requirement = none) ∧
      ((applyRecipeUpdate v r).icon_path = none → r.icon_path = none)) := by
  refine ⟨updateResource_resources_shape s rid u, fun r => ?_,
    updateCraftingRecipe_recipes_shape s rid v ings, fun r => ?_⟩
  · refine ⟨fun h => by simp [applyResourceUpdate, h],
      fun h => by simp [applyResourceUpdate, h],
      fun h => by simp [applyResourceUpdate, h],
      fun h => by simp [applyResourceUpdate, h],
      fun h => by simp [applyResourceUpdate, h],
      fun h => by simp [applyResourceUpdate, h],
      fun h => by simp [applyResourceUpdate, h], ?_, ?_, ?_, ?_, ?_⟩
    · intro h
      cases hd : u.description with
      | none => simpa [applyResourceUpdate, hd] using h
      | some w => simp [applyResourceUpdate, hd] at h
    · intro h
      cases hd : u.rarity with
      | none => simpa [applyResourceUpdate, hd] using h
      | some w => simp [applyResourceUpdate, hd] at h
    · intro h
      cases hd : u.category with
      | none => simpa [applyResourceUpdate, hd] using h
      | some w => simp [applyResourceUpdate, hd] at h
    · intro h
      cases hd : u.source_locations with
      | none => simpa [applyResourceUpdate, hd] using h
      | some w => simp [applyResourceUpdate, hd] at h
    · intro h
      cases hd : u.icon_path with
      | none => simpa [applyResourceUpdate, hd] using h
      | some w => simp [applyResourceUpdate, hd] at h
  · refine ⟨fun h => by simp [applyRecipeUpdate, h],
      fun h => by simp [applyRecipeUpdate, h],
      fun h => by simp [applyRecipeUpdate, h],
      fun h => by simp [applyRecipeUpdate, h],
      fun h => by simp [applyRecipeUpdate, h],
      fun h => by simp [applyRecipeUpdate, h],
      fun h => by simp [applyRecipeUpdate, h],
      fun h => by simp [applyRecipeUpdate, h],
      fun h => by simp [applyRecipeUpdate, h], ?_, ?_, ?_, ?_, ?_⟩
    · intro h
      cases hd : v.description with
      | none => simpa [applyRecipeUpdate, hd] using h
      | some w => simp [applyRecipeUpdate, hd] at h
    · intro h
      cases hd : v.crafting_time_seconds with
      | none => simpa [applyRecipeUpdate, hd] using h
      | some w => simp [applyRecipeUpdate, hd] at h
    · intro h
      cases hd : v.required_station with
      | none => simpa [applyRecipeUpdate, hd] using h
      | some w => simp [applyRecipeUpdate, hd] at h
    · intro h
      cases hd : v.skill_requirement with
      | none => simpa [applyRecipeUpdate, hd] using h
      | some w => simp [applyRecipeUpdate, hd] at h
    · intro h
      cases hd : v.icon_path with
      | none => simpa [applyRecipeUpdate, hd] using h
      | some w => simp [applyRecipeUpdate, hd] at h

/-- Claim C10 witness: an all-None update on the sample store leaves the
concrete rows and the nullable columns untouched. -/
theorem c10_witness :
    (applyResourceUpdate {} iron).description = iron.description ∧
    (applyRecipeUpdate {} stillsuit).required_station = stillsuit.required_station := by
  have h := c10_none_fields_untouched sampleStore 0 {} {} none
  exact ⟨((h.2.1 iron).2.1) rfl, (((((h.2.2.2 stillsuit).2).2).2).2).2.1 rfl⟩

/-! ## Claims C1 and C2: recipe replace and update semantics -/

/-- Rows surviving a delete of a recipe id cannot belong to that id. -/
theorem filter_not_filter (rid : Nat) (rows : List IngredientRow) :
    (rows.filter (fun row => ¬ row.recipe_id = rid)).filter (fun row => row.recipe_id = rid)
      = [] := by
  induction rows with
  | nil => rfl
  | cons r rs ih => by_cases h : r.recipe_id = rid <;> simp [h, ih]

/-- Freshly inserted rows of a recipe id all survive the ownership filter. -/
theorem filter_rows_map (rid : Nat) (l : List (Nat × Int)) :
    (l.map (fun p => (⟨rid, p.1, p.2⟩ : IngredientRow))).filter (fun row => row.recipe_id = rid)
      = l.map (fun p => (⟨rid, p.1, p.2⟩ : IngredientRow)) := by
  induction l with
  | nil => rfl
  | cons p ps ih => simp [ih]

/-- With no rename, an existing target recipe and an insertable ingredient
list, update_crafting_recipe replaces the ingredient set of the target
recipe with exactly the given list. -/
theorem updateCraftingRecipe_rows {s : Store} {rid : Nat} {u : RecipeUpdate}
    {l : List (Nat × Int)} (hex : (getCraftingRecipeById s rid).isSome)
    (hok : ingredientInsertOk s l = true) (hname : u.name = none) :
    ingredientRowsOf (updateCraftingRecipe s rid u (some l)).2 rid
      = l.map (fun p => (⟨rid, p.1, p.2⟩ : IngredientRow)) := by
  have hc : recipeNameConflict s rid u = false := by simp [recipeNameConflict, hname]
  simp only [updateCraftingRecipe]
  rw [if_neg (by simp [hc])]
  rw [if_neg (by simp [hex])]
  rw [if_neg (by simp [hex, hok])]
  simp only [ingredientRowsOf, List.filter_append, filter_not_filter, filter_rows_map,
    List.nil_append]

/-- Claim C2 counterexample: an update-strategy record that carries no
ingredients key at all still wipes the existing ingredient rows of the
matched recipe (the service always passes a concrete, possibly empty,
list to update_crafting_recipe). -/
theorem c2_counterexample :
    ingredientRowsOf sampleStore 0 = [⟨0, 0, 2⟩] ∧
    ingredientRowsOf
        (importRecipesData [{ name := some "Stillsuit" }] MergeStrategy.update sampleStore) 0
      = [] := by
  decide

/-- Claim C2 as amended: under strategy update the stored ingredient set
of the matched recipe is always fully replaced by the resolved incoming
set; a record with no ingredients key is treated exactly like one with an
empty list, so it deletes every existing ingredient row.  (The resolved
set must satisfy the schema constraints, which name-resolved ingredients
always do.) -/
theorem c2_ingredients_always_replaced (s : Store) (rec : RecipeRecord) (n : String)
    (ex : CraftingRecipe) (hwf : s.WF) (hn : rec.name = some n) (hne : ¬ n = "")
    (hex : getCraftingRecipeByName s n = some ex)
    (hok : ingredientInsertOk s (resolveIngs s (rec.ingredients.getD [])) = true) :
    ingredientRowsOf (importRecipeRecord s MergeStrategy.update rec) ex.id
      = (resolveIngs s (rec.ingredients.getD [])).map
          (fun p => (⟨ex.id, p.1, p.2⟩ : IngredientRow)) := by
  have hmem := getCraftingRecipeByName_some_spec hwf.2.1 hex
  have hisSome : (getCraftingRecipeById s ex.id).isSome :=
    getCraftingRecipeById_isSome_of_mem hmem.1
  simp only [importRecipeRecord, hn]
  rw [if_neg hne]
  simp only [hex]
  exact updateCraftingRecipe_rows hisSome hok rfl

/-- Claim C2 witness: the amended replacement at a concrete store whose
recipe owns one ingredient row and a record with no ingredients key. -/
theorem c2_witness :
    ingredientRowsOf
        (importRecipeRecord sampleStore MergeStrategy.update { name := some "Stillsuit" }) 0
      = [] := by
  have h := c2_ingredients_always_replaced sampleStore { name := some "Stillsuit" }
    "Stillsuit" stillsuit (by decide) rfl (by decide) (by decide) (by decide)
  simpa using h

/-- Claim C1 counterexample: a replace-strategy record missing its
output_item_name deletes the matched recipe and its ingredient row and
creates nothing, so the existing entity does not remain in the store and
the delete visibly committed without the create. -/
theorem c1_counterexample :
    getCraftingRecipeByName sampleStore "Stillsuit" = some stillsuit ∧
    ingredientRowsOf sampleStore 0 = [⟨0, 0, 2⟩] ∧
    importRecipesData [{ name := some "Stillsuit" }] MergeStrategy.replace sampleStore
      = ⟨[iron], [], [], 1, 1⟩ ∧
    getCraftingRecipeByName
        (importRecipesData [{ name := some "Stillsuit" }] MergeStrategy.replace sampleStore)
        "Stillsuit"
      = none := by
  decide

/-- Claim C1 as amended: under strategy replace the old recipe is deleted
first; when the incoming record has a missing or empty output_item_name
the creation step is skipped, leaving the store exactly as after the
delete: the recipe gone, its ingredient rows gone.  The delete and the
skipped create are separate committed operations, not one atomic
transaction. -/
theorem c1_replace_missing_output (s : Store) (rec : RecipeRecord) (n : String)
    (ex : CraftingRecipe) (hwf : s.WF) (hn : rec.name = some n) (hne : ¬ n = "")
    (hex : getCraftingRecipeByName s n = some ex)
    (hout : rec.output_item_name = none ∨ rec.output_item_name = some "") :
    importRecipeRecord s MergeStrategy.replace rec = (deleteCraftingRecipe s ex.id).2 ∧
    getCraftingRecipeByName (importRecipeRecord s MergeStrategy.replace rec) n = none ∧
    ingredientRowsOf (importRecipeRecord s MergeStrategy.replace rec) ex.id = [] := by
  have hexspec := getCraftingRecipeByName_some_spec hwf.2.1 hex
  have h1 : importRecipeRecord s MergeStrategy.replace rec = (deleteCraftingRecipe s ex.id).2 := by
    simp only [importRecipeRecord, hn]
    rw [if_neg hne]
    simp only [hex]
    rcases hout with h | h
    · rw [h]
    · rw [h]
      simp
  have hfind : ((deleteCraftingRecipe s ex.id).2).recipes.find? (fun r => r.name = n) = none := by
    apply List.find?_eq_none.mpr
    intro row hrow
    simp only [deleteCraftingRecipe, List.mem_filter, decide_eq_true_eq] at hrow
    obtain ⟨hmemrow, hid⟩ := hrow
    simp only [decide_eq_true_eq]
    intro hname
    have heq : row = ex :=
      List.inj_on_of_nodup_map hwf.2.2.2.1 hmemrow hexspec.1 (by rw [hname, hexspec.2])
    exact hid (by rw [heq])
  have hlook : getCraftingRecipeByName (deleteCraftingRecipe s ex.id).2 n = none := by
    unfold getCraftingRecipeByName
    rw [hfind]
  have hrows : ingredientRowsOf (deleteCraftingRecipe s ex.id).2 ex.id = [] := by
    simp only [deleteCraftingRecipe, ingredientRowsOf]
    exact filter_not_filter ex.id s.recipeIngredients
  exact ⟨h1, by rw [h1]; exact hlook, by rw [h1]; exact hrows⟩

/-- Claim C1 witness: the amended replace behaviour on the sample store
and the record missing output_item_name. -/
theorem c1_witness :
    importRecipeRecord sampleStore MergeStrategy.replace { name := some "Stillsuit" }
      = (deleteCraftingRecipe sampleStore 0).2 ∧
    getCraftingRecipeByName
        (importRecipeRecord sampleStore MergeStrategy.replace { name := some "Stillsuit" })
        "Stillsuit"
      = none := by
  have h := c1_replace_missing_output sampleStore { name := some "Stillsuit" } "Stillsuit"
    stillsuit (by decide) rfl (by decide) (by decide) (Or.inl rfl)
  exact ⟨h.1, h.2.1⟩

/-! ## Claim C7: duplicate names inside one update batch -/

/-- With no rename and an existing target found by name, update_resource
maps the row update over the table. -/
theorem updateResource_noname {s : Store} {n : String} {ex : Resource} (u : ResourceUpdate)
    (hname : u.name = none) (hex : getResourceByName s n = some ex) :
    (updateResource s ex.id u).2.resources
      = s.resources.map (fun r => if r.id = ex.id then applyResourceUpdate u r else r) := by
  have hc : resourceNameConflict s ex.id u = false := by simp [resourceNameConflict, hname]
  have hmem := getResourceByName_some_spec hex
  have hsome : (getResourceById s ex.id).isSome := getResourceById_isSome_of_mem hmem.1
  unfold updateResource
  rw [if_neg (by simp [hc])]
  cases hbyid : getResourceById s ex.id with
  | none => rw [hbyid] at hsome; cases hsome
  | some r0 => simp

/-- A no-rename row update preserves every name-match test. -/
theorem updRow_name_pres {u : ResourceUpdate} (hname : u.name = none) (rid : Nat) (m : String) :
    ∀ a : Resource,
      (fun r => decide (r.name = m)) ((fun r => if r.id = rid then applyResourceUpdate u r else r) a)
        = (fun r => decide (r.name = m)) a := by
  intro a
  by_cases hid : a.id = rid
  · simp [hid, applyResourceUpdate, hname]
  · simp [hid]

/-- After a no-rename update of the resource found by name, looking the
name up returns the updated row. -/
theorem getResourceByName_after_update {s : Store} {n : String} {ex : Resource}
    {u : ResourceUpdate} (hname : u.name = none) (hex : getResourceByName s n = some ex) :
    getResourceByName (updateResource s ex.id u).2 n = some (applyResourceUpdate u ex) := by
  have hres := updateResource_noname u hname hex
  unfold getResourceByName at hex ⊢
  rw [hres, find?_map_of_pred_pres _ _ (updRow_name_pres hname ex.id n) s.resources, hex]
  simp

/-- Claim C7 counterexample: a batch holding two records named Spice under
strategy update performs two updates on the pre-existing resource (the
per-record log shows two update events), not exactly one; the second entry
wins and no duplicate is created. -/
theorem c7_counterexample :
    (importResourcesData [{ name := some "Spice", category := some "B" },
                          { name := some "Spice", category := some "C" }]
        MergeStrategy.update spiceStore).2
      = [ResourceEvent.updated "Spice", ResourceEvent.updated "Spice"] ∧
    (importResourcesData [{ name := some "Spice", category := some "B" },
                          { name := some "Spice", category := some "C" }]
        MergeStrategy.update spiceStore).1.resources
      = [⟨0, "Spice", none, none, some "C", none, none, 0⟩] := by
  decide

/-- Claim C7 as amended: each matching record of the batch triggers one
update of the pre-existing resource, so a batch with two records of the
same name updates it twice; the resource count is unchanged (no duplicate)
and the final value is the second update applied after the first, so every
field supplied by the later entry wins. -/
theorem c7_duplicate_name_batch (s : Store) (r1 r2 : ResourceRecord) (n : String)
    (ex : Resource) (h1 : r1.name = some n) (h2 : r2.name = some n) (hn : ¬ n = "")
    (hex : getResourceByName s n = some ex) :
    (importResourcesData [r1, r2] MergeStrategy.update s).2
      = [ResourceEvent.updated n, ResourceEvent.updated n] ∧
    (importResourcesData [r1, r2] MergeStrategy.update s).1.resources.length
      = s.resources.length ∧
    getResourceByName (importResourcesData [r1, r2] MergeStrategy.update s).1 n
      = some (applyResourceUpdate (resourceUpdatePayload r2)
          (applyResourceUpdate (resourceUpdatePayload r1) ex)) := by
  have hstep1 : importResourceRecord s MergeStrategy.update r1
      = ((updateResource s ex.id (resourceUpdatePayload r1)).2, [ResourceEvent.updated n]) := by
    simp only [importResourceRecord, h1]
    rw [if_neg hn]
    simp only [hex]
  have hex1 : getResourceByName (updateResource s ex.id (resourceUpdatePayload r1)).2 n
      = some (applyResourceUpdate (resourceUpdatePayload r1) ex) :=
    getResourceByName_after_update rfl hex
  have hstep2 : importResourceRecord (updateResource s ex.id (resourceUpdatePayload r1)).2
        MergeStrategy.update r2
      = ((updateResource (updateResource s ex.id (resourceUpdatePayload r1)).2
            (applyResourceUpdate (resourceUpdatePayload r1) ex).id (resourceUpdatePayload r2)).2,
         [ResourceEvent.updated n]) := by
    simp only [importResourceRecord, h2]
    rw [if_neg hn]
    simp only [hex1]
  have hall : importResourcesData [r1, r2] MergeStrategy.update s
      = ((updateResource (updateResource s ex.id (resourceUpdatePayload r1)).2
            (applyResourceUpdate (resourceUpdatePayload r1) ex).id (resourceUpdatePayload r2)).2,
         [ResourceEvent.updated n, ResourceEvent.updated n]) := by
    simp only [importResourcesData, hstep1, hstep2]
    rfl
  refine ⟨by rw [hall], ?_, ?_⟩
  · rw [hall]
    have hr2 := updateResource_noname (resourceUpdatePayload r2) rfl hex1
    have hr1 := updateResource_noname (resourceUpdatePayload r1) rfl hex
    simp only [hr2, hr1, List.length_map]
  · rw [hall]
    exact getResourceByName_after_update rfl hex1

/-- Claim C7 witness: the amended behaviour at the concrete Spice store
and a concrete two-record batch. -/
theorem c7_witness :
    (importResourcesData [{ name := some "Spice", category := some "B" },
                          { name := some "Spice", category := some "C" }]
        MergeStrategy.update spiceStore).2
      = [ResourceEvent.updated "Spice", ResourceEvent.updated "Spice"] ∧
    getResourceByName
        (importResourcesData [{ name := some "Spice", category := some "B" },
                              { name := some "Spice", category := some "C" }]
            MergeStrategy.update spiceStore).1 "Spice"
      = some ⟨0, "Spice", none, none, some "C", none, none, 0⟩ := by
  have h := c7_duplicate_name_batch spiceStore
    { name := some "Spice", category := some "B" }
    { name := some "Spice", category := some "C" } "Spice"
    ⟨0, "Spice", none, none, some "A", none, none, 0⟩ rfl rfl (by decide) (by decide)
  exact ⟨h.1, by rw [h.2.2]; decide⟩

/-! ## Claim C4: unresolved ingredient names are dropped, never fatal -/

/-- Name-resolved ingredients always reference resources present in the
store. -/
theorem resolveIngs_byName_ok {s : Store} {ings : List IngInput}
    (hby : ∀ i ∈ ings, ∃ b q, i = IngInput.byName b q) :
    ∀ p ∈ resolveIngs s ings, (getResourceById s p.1).isSome = true := by
  intro p hp
  obtain ⟨i, hi, hres⟩ := List.mem_filterMap.mp hp
  obtain ⟨b, q, rfl⟩ := hby i hi
  simp only [resolveIng] at hres
  cases hlook : getResourceByName s b with
  | none => rw [hlook] at hres; cases hres
  | some r =>
    rw [hlook] at hres
    cases hres
    exact getResourceById_isSome_of_mem (getResourceByName_some_spec hlook).1

/-- Ingredient rows of recipes below an id bound never match that bound. -/
theorem filter_rows_lt {rows : List IngredientRow} {k : Nat}
    (h : ∀ row ∈ rows, row.recipe_id < k) :
    rows.filter (fun row => row.recipe_id = k) = [] := by
  induction rows with
  | nil => rfl
  | cons r rs ih =>
    have hr := Nat.ne_of_lt (h r (List.mem_cons_self r rs))
    simp only [List.filter_cons, decide_eq_true_eq]
    rw [if_neg (by simpa using hr)]
    exact ih (fun row hrow => h row (List.mem_cons_of_mem r hrow))

/-- No recipe below an id bound can be found at that bound. -/
theorem find?_id_lt {l : List CraftingRecipe} (k : Nat) (h : ∀ r ∈ l, r.id < k) :
    l.find? (fun r => r.id = k) = none := by
  apply List.find?_eq_none.mpr
  intro x hx
  simp [Nat.ne_of_lt (h x hx)]

/-- Claim C4: a recipe record whose name-referenced ingredient is missing
from the store is still imported: the import call returns True; on the
create path the recipe is inserted with exactly the resolved ingredient
set (the unresolved names dropped, possibly leaving zero rows); on the
update path the matched recipe keeps existing and receives exactly the
resolved set.  A bad ingredient never aborts its record or the batch. -/
theorem c4_unresolved_ingredient_dropped (s : Store) (strat : MergeStrategy)
    (rec : RecipeRecord) (n : String) (ings : List IngInput) (hwf : s.WF)
    (hn : rec.name = some n) (hne : ¬ n = "")
    (hing : rec.ingredients = some ings)
    (hby : ∀ i ∈ ings, ∃ b q, i = IngInput.byName b q)
    (hnodup : ((resolveIngs s ings).map Prod.fst).Nodup) :
    (importJson { crafting_recipes := some [rec] } strat s).1 = true ∧
    (∀ o, rec.output_item_name = some o → ¬ o = "" →
      getCraftingRecipeByName s n = none →
      getCraftingRecipeByName (importJson { crafting_recipes := some [rec] } strat s).2 n
          = some ⟨s.nextRecipeId, n, rec.description, o, rec.output_quantity.getD 1,
                  rec.crafting_time_seconds, rec.required_station, rec.skill_requirement,
                  rec.icon_path, rec.discovered.getD 0⟩ ∧
      ingredientRowsOf (importJson { crafting_recipes := some [rec] } strat s).2 s.nextRecipeId
          = (resolveIngs s ings).map (fun p => (⟨s.nextRecipeId, p.1, p.2⟩ : IngredientRow)) ∧
      ((∀ i ∈ ings, ∃ b q, i = IngInput.byName b q ∧ getResourceByName s b = none) →
        ingredientRowsOf (importJson { crafting_recipes := some [rec] } strat s).2 s.nextRecipeId
          = [])) ∧
    (∀ ex, getCraftingRecipeByName s n = some ex → strat = MergeStrategy.update →
      ingredientRowsOf (importJson { crafting_recipes := some [rec] } strat s).2 ex.id
          = (resolveIngs s ings).map (fun p => (⟨ex.id, p.1, p.2⟩ : IngredientRow))) := by
  have hok : ingredientInsertOk s (resolveIngs s ings) = true := by
    unfold ingredientInsertOk
    rw [Bool.and_eq_true]
    exact ⟨List.all_eq_true.mpr (resolveIngs_byName_ok hby), decide_eq_true hnodup⟩
  have hjson : (importJson { crafting_recipes := some [rec] } strat s).2
      = importRecipeRecord s strat rec := rfl
  refine ⟨rfl, fun o ho hoe hnew => ?_, fun ex hex hstrat => ?_⟩
  · have hbuild : importRecipeRecord s strat rec
        = (createCraftingRecipe s n o (rec.output_quantity.getD 1) rec.description
            rec.crafting_time_seconds rec.required_station rec.skill_requirement
            rec.icon_path (rec.discovered.getD 0) (resolveIngs s ings)).2 := by
      simp only [importRecipeRecord, hn, hing, Option.getD_some]
      rw [if_neg hne]
      simp only [hnew, ho]
      rw [if_neg hoe]
    have hcreate : (createCraftingRecipe s n o (rec.output_quantity.getD 1) rec.description
          rec.crafting_time_seconds rec.required_station rec.skill_requirement
          rec.icon_path (rec.discovered.getD 0) (resolveIngs s ings)).2
        = { s with
            recipes := s.recipes ++
              [⟨s.nextRecipeId, n, rec.description, o, rec.output_quantity.getD 1,
                rec.crafting_time_seconds, rec.required_station, rec.skill_requirement,
                rec.icon_path, rec.discovered.getD 0⟩],
            recipeIngredients := s.recipeIngredients ++
              (resolveIngs s ings).map
                (fun p => (⟨s.nextRecipeId, p.1, p.2⟩ : IngredientRow)),
            nextRecipeId := s.nextRecipeId + 1 } := by
      unfold createCraftingRecipe
      rw [if_neg (by simp [hnew]), if_neg (by simp [hok])]
    set newRec : CraftingRecipe :=
      ⟨s.nextRecipeId, n, rec.description, o, rec.output_quantity.getD 1,
       rec.crafting_time_seconds, rec.required_station, rec.skill_requirement,
       rec.icon_path, rec.discovered.getD 0⟩ with hnewRec
    have hfindname : (s.recipes ++ [newRec]).find? (fun r => r.name = n) = some newRec := by
      rw [find?_append]
      rw [getCraftingRecipeByName_none_find hnew]
      simp [hnewRec]
    have hfindid : (s.recipes ++ [newRec]).find? (fun r => r.id = newRec.id) = some newRec := by
      rw [find?_append]
      rw [find?_id_lt s.nextRecipeId hwf.2.2.2.2.2.1]
      simp
    have hrows : ingredientRowsOf
          (importJson { crafting_recipes := some [rec] } strat s).2 s.nextRecipeId
        = (resolveIngs s ings).map
            (fun p => (⟨s.nextRecipeId, p.1, p.2⟩ : IngredientRow)) := by
      rw [hjson, hbuild, hcreate]
      simp only [ingredientRowsOf, List.filter_append]
      rw [filter_rows_lt hwf.2.2.2.2.2.2, filter_rows_map]
      simp
    refine ⟨?_, hrows, fun hall => ?_⟩
    · rw [hjson, hbuild, hcreate]
      unfold getCraftingRecipeByName
      simp only []
      rw [hfindname]
      unfold getCraftingRecipeById
      simp only []
      rw [hfindid]
    · have hres : resolveIngs s ings = [] := by
        apply List.filterMap_eq_nil_iff.mpr
        intro i hi
        obtain ⟨b, q, hbq, hlook⟩ := hall i hi
        rw [hbq]
        simp [resolveIng, hlook]
      rw [hrows, hres]
      rfl
  · subst hstrat
    have hmem := getCraftingRecipeByName_some_spec hwf.2.1 hex
    have hisSome : (getCraftingRecipeById s ex.id).isSome :=
      getCraftingRecipeById_isSome_of_mem hmem.1
    rw [hjson]
    simp only [importRecipeRecord, hn, hing, Option.getD_some]
    rw [if_neg hne]
    simp only [hex]
    exact updateCraftingRecipe_rows hisSome hok rfl

/-- Claim C4 witness: importing a recipe whose only ingredient references
the missing resource Bogus creates the recipe with zero ingredient rows
and still returns True. -/
theorem c4_witness :
    (importJson { crafting_recipes := some [bogusIngredientRec] }
        MergeStrategy.update spiceStore).1 = true ∧
    getCraftingRecipeByName
        (importJson { crafting_recipes := some [bogusIngredientRec] }
          MergeStrategy.update spiceStore).2 "Water Filter"
      = some ⟨0, "Water Filter", none, "Clean Water", 1, none, none, none, none, 0⟩ ∧
    ingredientRowsOf
        (importJson { crafting_recipes := some [bogusIngredientRec] }
          MergeStrategy.update spiceStore).2 0
      = [] := by
  have h := c4_unresolved_ingredient_dropped spiceStore MergeStrategy.update
    bogusIngredientRec "Water Filter" [IngInput.byName "Bogus" 2] (by decide) rfl
    (by decide) rfl
    (fun i hi => by
      cases hi with
      | head => exact ⟨"Bogus", 2, rfl⟩
      | tail _ hmem => cases hmem)
    (by decide)
  have h2 := h.2.1 "Clean Water" rfl (by decide) (by decide)
  exact ⟨h.1, h2.1, by decide⟩

/-! ## Claim C8: update scoping (frame over entities outside the batch) -/

/-- Mapping a key-preserving function over a table keeps its key column. -/
theorem map_map_key {α κ : Type _} (f : α → α) (key : α → κ)
    (h : ∀ a, key (f a) = key a) : ∀ l : List α, (l.map f).map key = l.map key := by
  intro l
  induction l with
  | nil => rfl
  | cons x xs ih => simp [h, ih]

/-- Appending one fresh key keeps a key column duplicate-free. -/
theorem nodup_append_singleton {κ : Type _} {l : List κ} {k : κ}
    (hl : l.Nodup) (hk : k ∉ l) : (l ++ [k]).Nodup := by
  rw [List.nodup_append]
  exact ⟨hl, List.nodup_singleton k, by simpa using hk⟩

/-- The row update of a no-rename resource update preserves ids. -/
theorem resRow_id_pres (u : ResourceUpdate) (rid : Nat) :
    ∀ a : Resource, ((if a.id = rid then applyResourceUpdate u a else a).id) = a.id := by
  intro a
  by_cases h : a.id = rid <;> simp [h, applyResourceUpdate]

/-- The row update of a no-rename resource update preserves names. -/
theorem resRow_name_pres' {u : ResourceUpdate} (hname : u.name = none) (rid : Nat) :
    ∀ a : Resource, ((if a.id = rid then applyResourceUpdate u a else a).name) = a.name := by
  intro a
  by_cases h : a.id = rid <;> simp [h, applyResourceUpdate, hname]

/-- The row update of a no-rename recipe update preserves ids. -/
theorem recRow_id_pres (u : RecipeUpdate) (rid : Nat) :
    ∀ a : CraftingRecipe, ((if a.id = rid then applyRecipeUpdate u a else a).id) = a.id := by
  intro a
  by_cases h : a.id = rid <;> simp [h, applyRecipeUpdate]

/-- The row update of a no-rename recipe update preserves names. -/
theorem recRow_name_pres {u : RecipeUpdate} (hname : u.name = none) (rid : Nat) :
    ∀ a : CraftingRecipe, ((if a.id = rid then applyRecipeUpdate u a else a).name) = a.name := by
  intro a
  by_cases h : a.id = rid <;> simp [h, applyRecipeUpdate, hname]

/-- A no-rename in-place row update preserves store well-formedness. -/
theorem WF_map_resources {s : Store} (hwf : s.WF) {u : ResourceUpdate}
    (hname : u.name = none) (rid : Nat) :
    Store.WF ⟨s.resources.map (fun r => if r.id = rid then applyResourceUpdate u r else r),
      s.recipes, s.recipeIngredients, s.nextResourceId, s.nextRecipeId⟩ := by
  obtain ⟨h1, h2, h3, h4, h5, h6, h7⟩ := hwf
  refine ⟨?_, h2, ?_, h4, ?_, h6, h7⟩
  · rw [map_map_key _ Resource.id (resRow_id_pres u rid)]; exact h1
  · rw [map_map_key _ Resource.name (resRow_name_pres' hname rid)]; exact h3
  · intro r' hr'
    obtain ⟨a, ha, rfl⟩ := List.mem_map.mp hr'
    rw [resRow_id_pres u rid a]
    exact h5 a ha

/-- Creating a fresh resource preserves store well-formedness. -/
theorem WF_append_resource {s : Store} (hwf : s.WF) {n : String}
    {d ra c sl ip : Option String} {dv : Int}
    (hnew : getResourceByName s n = none) :
    Store.WF ⟨s.resources ++ [⟨s.nextResourceId, n, d, ra, c, sl, ip, dv⟩],
      s.recipes, s.recipeIngredients, s.nextResourceId + 1, s.nextRecipeId⟩ := by
  obtain ⟨h1, h2, h3, h4, h5, h6, h7⟩ := hwf
  have hid : (s.nextResourceId : Nat) ∉ s.resources.map Resource.id := by
    intro hmem
    obtain ⟨r, hr, hidr⟩ := List.mem_map.mp hmem
    exact Nat.lt_irrefl _ (hidr ▸ h5 r hr)
  have hnm : n ∉ s.resources.map Resource.name := by
    intro hmem
    obtain ⟨r, hr, hnr⟩ := List.mem_map.mp hmem
    have := List.find?_eq_none.mp hnew r hr
    simp [hnr] at this
  refine ⟨?_, h2, ?_, h4, ?_, h6, h7⟩
  · rw [List.map_append]; exact nodup_append_singleton h1 hid
  · rw [List.map_append]; exact nodup_append_singleton h3 hnm
  · intro r' hr'
    rcases List.mem_append.mp hr' with hmem | hmem
    · exact Nat.lt_trans (h5 r' hmem) (Nat.lt_succ_self _)
    · rw [List.mem_singleton] at hmem
      subst hmem
      exact Nat.lt_succ_self _

/-- A no-rename recipe update with full ingredient replacement preserves
store well-formedness. -/
theorem WF_recipe_update {s : Store} (hwf : s.WF) {u : RecipeUpdate}
    (hname : u.name = none) {rid : Nat} (hrid : rid < s.nextRecipeId)
    (l : List (Nat × Int)) :
    Store.WF ⟨s.resources,
      (if hasRecipeScalarUpdate u then s.recipes.map (fun r => if r.id = rid then applyRecipeUpdate u r else r) else s.recipes),
      s.recipeIngredients.filter (fun row => ¬ row.recipe_id = rid) ++ l.map (fun p => ⟨rid, p.1, p.2⟩),
      s.nextResourceId, s.nextRecipeId⟩ := by
  obtain ⟨h1, h2, h3, h4, h5, h6, h7⟩ := hwf
  have hing : ∀ row ∈ (s.recipeIngredients.filter (fun row => ¬ row.recipe_id = rid)
      ++ l.map (fun p => (⟨rid, p.1, p.2⟩ : IngredientRow))), row.recipe_id < s.nextRecipeId := by
    intro row hrow
    rcases List.mem_append.mp hrow with hmem | hmem
    · exact h7 row (List.mem_of_mem_filter hmem)
    · obtain ⟨p, hp, rfl⟩ := List.mem_map.mp hmem
      exact hrid
  by_cases hs : hasRecipeScalarUpdate u = true
  · rw [if_pos hs]
    refine ⟨h1, ?_, h3, ?_, h5, ?_, hing⟩
    · rw [map_map_key _ CraftingRecipe.id (recRow_id_pres u rid)]; exact h2
    · rw [map_map_key _ CraftingRecipe.name (recRow_name_pres hname rid)]; exact h4
    · intro r' hr'
      obtain ⟨a, ha, rfl⟩ := List.mem_map.mp hr'
      rw [recRow_id_pres u rid a]
      exact h6 a ha
  · rw [if_neg hs]
    exact ⟨h1, h2, h3, h4, h5, h6, hing⟩

/-- Creating a fresh recipe with its ingredient rows preserves store
well-formedness. -/
theorem WF_append_recipe {s : Store} (hwf : s.WF) {n o : String}
    {oq dv : Int} {d : Option String} {cts : Option Int} {rs sr ip : Option String}
    (l : List (Nat × Int)) (hnew : getCraftingRecipeByName s n = none) :
    Store.WF ⟨s.resources,
      s.recipes ++ [⟨s.nextRecipeId, n, d, o, oq, cts, rs, sr, ip, dv⟩],
      s.recipeIngredients ++ l.map (fun p => ⟨s.nextRecipeId, p.1, p.2⟩),
      s.nextResourceId, s.nextRecipeId + 1⟩ := by
  obtain ⟨h1, h2, h3, h4, h5, h6, h7⟩ := hwf
  have hid : (s.nextRecipeId : Nat) ∉ s.recipes.map CraftingRecipe.id := by
    intro hmem
    obtain ⟨r, hr, hidr⟩ := List.mem_map.mp hmem
    exact Nat.lt_irrefl _ (hidr ▸ h6 r hr)
  have hfind := getCraftingRecipeByName_none_find hnew
  have hnm : n ∉ s.recipes.map CraftingRecipe.name := by
    intro hmem
    obtain ⟨r, hr, hnr⟩ := List.mem_map.mp hmem
    have := List.find?_eq_none.mp hfind r hr
    simp [hnr] at this
  refine ⟨h1, ?_, h3, ?_, h5, ?_, ?_⟩
  · rw [List.map_append]; exact nodup_append_singleton h2 hid
  · rw [List.map_append]; exact nodup_append_singleton h4 hnm
  · intro r' hr'
    rcases List.mem_append.mp hr' with hmem | hmem
    · exact Nat.lt_trans (h6 r' hmem) (Nat.lt_succ_self _)
    · rw [List.mem_singleton] at hmem
      subst hmem
      exact Nat.lt_succ_self _
  · intro row hrow
    rcases List.mem_append.mp hrow with hmem | hmem
    · exact Nat.lt_trans (h7 row hmem) (Nat.lt_succ_self _)
    · obtain ⟨p, hp, rfl⟩ := List.mem_map.mp hmem
      exact Nat.lt_succ_self _

/-- Ownership filtering commutes with deleting the rows of another recipe. -/
theorem filter_neq_filter {rid k : Nat} (hne : ¬ k = rid) (rows : List IngredientRow) :
    (rows.filter (fun row => ¬ row.recipe_id = rid)).filter (fun row => row.recipe_id = k)
      = rows.filter (fun row => row.recipe_id = k) := by
  rw [List.filter_filter]
  apply List.filter_congr
  intro a _
  by_cases h : a.recipe_id = k
  · have hnr : ¬ a.recipe_id = rid := fun hh => hne (h.symm.trans hh)
    simp [h, hnr, hne]
  · simp [h]

/-- Rows inserted for one recipe never show up under another recipe id. -/
theorem filter_rows_map_ne {rid k : Nat} (hne : ¬ k = rid) (l : List (Nat × Int)) :
    (l.map (fun p => (⟨rid, p.1, p.2⟩ : IngredientRow))).filter
        (fun row => row.recipe_id = k) = [] := by
  induction l with
  | nil => rfl
  | cons p ps ih =>
    simp only [List.map_cons, List.filter_cons]
    rw [if_neg (by simp only [decide_eq_true_eq]; exact fun hh => hne hh.symm)]
    exact ih

/-- With no rename and an existing target found by name, update_resource
changes only the resources table, in place. -/
theorem updateResource_noname_store {s : Store} {n : String} {ex : Resource}
    {u : ResourceUpdate} (hname : u.name = none) (hex : getResourceByName s n = some ex) :
    (updateResource s ex.id u).2
      = ⟨s.resources.map (fun r => if r.id = ex.id then applyResourceUpdate u r else r),
         s.recipes, s.recipeIngredients, s.nextResourceId, s.nextRecipeId⟩ := by
  have hc : resourceNameConflict s ex.id u = false := by simp [resourceNameConflict, hname]
  have hmem := getResourceByName_some_spec hex
  have hsome : (getResourceById s ex.id).isSome := getResourceById_isSome_of_mem hmem.1
  unfold updateResource
  rw [if_neg (by simp [hc])]
  cases hbyid : getResourceById s ex.id with
  | none => rw [hbyid] at hsome; cases hsome
  | some r0 => simp

/-- createResource on a fresh name appends exactly one row. -/
theorem createResource_new {s : Store} {n : String} {d ra c sl ip : Option String}
    {dv : Int} (hnew : getResourceByName s n = none) :
    (createResource s n d ra c sl ip dv).2
      = ⟨s.resources ++ [⟨s.nextResourceId, n, d, ra, c, sl, ip, dv⟩],
         s.recipes, s.recipeIngredients, s.nextResourceId + 1, s.nextRecipeId⟩ := by
  unfold createResource
  rw [if_neg (by simp [hnew])]

/-- A no-rename in-place update does not change any other name lookup. -/
theorem find?_name_map_other {l : List Resource} (hids : (l.map Resource.id).Nodup)
    {u : ResourceUpdate} (hname : u.name = none) {n m : String} {ex : Resource}
    (hfindn : l.find? (fun r => r.name = n) = some ex) (hm : ¬ m = n) :
    (l.map (fun r => if r.id = ex.id then applyResourceUpdate u r else r)).find?
        (fun r => r.name = m) = l.find? (fun r => r.name = m) := by
  rw [find?_map_of_pred_pres _ _ (updRow_name_pres hname ex.id m) l]
  cases hfind : l.find? (fun r => r.name = m) with
  | none => rfl
  | some row =>
    have hrowmem := List.mem_of_find?_eq_some hfind
    have hrowname : row.name = m := by simpa using List.find?_some hfind
    have hexmem := List.mem_of_find?_eq_some hfindn
    have hexname : ex.name = n := by simpa using List.find?_some hfindn
    have hrow_ne : ¬ row.id = ex.id := by
      intro hid
      have heq : row = ex := List.inj_on_of_nodup_map hids hrowmem hexmem (by rw [hid])
      exact hm (by rw [← hrowname, heq, hexname])
    simp [hrow_ne]

/-- One update-strategy resource record preserves well-formedness, leaves
the recipe tables untouched, and changes no resource of another name. -/
theorem importResourceRecord_update_frame (s : Store) (rec : ResourceRecord) (hwf : s.WF) :
    (importResourceRecord s MergeStrategy.update rec).1.WF ∧
    (importResourceRecord s MergeStrategy.update rec).1.recipes = s.recipes ∧
    (importResourceRecord s MergeStrategy.update rec).1.recipeIngredients
      = s.recipeIngredients ∧
    (importResourceRecord s MergeStrategy.update rec).1.nextRecipeId = s.nextRecipeId ∧
    ∀ m : String, ¬ rec.name = some m →
      getResourceByName (importResourceRecord s MergeStrategy.update rec).1 m
        = getResourceByName s m := by
  cases hname : rec.name with
  | none =>
    have hstep : (importResourceRecord s MergeStrategy.update rec).1 = s := by
      simp [importResourceRecord, hname]
    rw [hstep]
    exact ⟨hwf, rfl, rfl, rfl, fun _ _ => rfl⟩
  | some n =>
    by_cases hne : n = ""
    · have hstep : (importResourceRecord s MergeStrategy.update rec).1 = s := by
        simp only [importResourceRecord, hname]
        rw [if_pos hne]
      rw [hstep]
      exact ⟨hwf, rfl, rfl, rfl, fun _ _ => rfl⟩
    · cases hex : getResourceByName s n with
      | some ex =>
        have hstep : (importResourceRecord s MergeStrategy.update rec).1
            = (updateResource s ex.id (resourceUpdatePayload rec)).2 := by
          simp only [importResourceRecord, hname]
          rw [if_neg hne]
          simp only [hex]
        rw [hstep, updateResource_noname_store rfl hex]
        refine ⟨WF_map_resources hwf rfl ex.id, rfl, rfl, rfl, fun m hm => ?_⟩
        have hnm : ¬ m = n := fun hh => hm (by rw [hh])
        exact find?_name_map_other hwf.1 rfl hex hnm
      | none =>
        have hstep : (importResourceRecord s MergeStrategy.update rec).1
            = (createResource s n rec.description rec.rarity rec.category
                rec.source_locations rec.icon_path (rec.discovered.getD 0)).2 := by
          simp only [importResourceRecord, hname]
          rw [if_neg hne]
          simp only [hex]
        rw [hstep, createResource_new hex]
        refine ⟨WF_append_resource hwf hex, rfl, rfl, rfl, fun m hm => ?_⟩
        have hnm : ¬ n = m := fun hh => hm (by rw [hh])
        unfold getResourceByName
        rw [find?_append]
        cases hfind : s.resources.find? (fun r => r.name = m) with
        | some row => rfl
        | none =>
          dsimp only
          rw [List.find?_cons_of_neg _ (by simp [hnm]), List.find?_nil]

/-- Recipe name lookup reads only the recipe table. -/
theorem byName_congr {s1 s2 : Store} (h : s1.recipes = s2.recipes) (m : String) :
    getCraftingRecipeByName s1 m = getCraftingRecipeByName s2 m := by
  unfold getCraftingRecipeByName getCraftingRecipeById
  rw [h]

/-- With no rename and an existing target, update_crafting_recipe either
rolls back entirely or commits the in-place scalar update and the full
ingredient replacement. -/
theorem updateCraftingRecipe_store (s : Store) (rid : Nat) (u : RecipeUpdate)
    (l : List (Nat × Int)) (hname : u.name = none)
    (hexs : (getCraftingRecipeById s rid).isSome) :
    (updateCraftingRecipe s rid u (some l)).2 = s ∨
    (updateCraftingRecipe s rid u (some l)).2
      = ⟨s.resources,
         (if hasRecipeScalarUpdate u then s.recipes.map (fun r => if r.id = rid then applyRecipeUpdate u r else r) else s.recipes),
         s.recipeIngredients.filter (fun row => ¬ row.recipe_id = rid) ++ l.map (fun p => ⟨rid, p.1, p.2⟩),
         s.nextResourceId, s.nextRecipeId⟩ := by
  have hc : recipeNameConflict s rid u = false := by simp [recipeNameConflict, hname]
  simp only [updateCraftingRecipe]
  rw [if_neg (by simp [hc])]
  rw [if_neg (by simp [hexs])]
  by_cases h3 : ((!(getCraftingRecipeById s rid).isSome && !l.isEmpty)
      || !ingredientInsertOk s l) = true
  · rw [if_pos h3]; left; rfl
  · rw [if_neg h3]; right; rfl

/-- create_crafting_recipe either changes nothing or appends the fresh
recipe and its ingredient rows. -/
theorem createCraftingRecipe_store (s : Store) (name o : String) (oq : Int)
    (d : Option String) (cts : Option Int) (rs sr ip : Option String) (dv : Int)
    (l : List (Nat × Int)) :
    (createCraftingRecipe s name o oq d cts rs sr ip dv l).2 = s ∨
    (createCraftingRecipe s name o oq d cts rs sr ip dv l).2
      = ⟨s.resources,
         s.recipes ++ [⟨s.nextRecipeId, name, d, o, oq, cts, rs, sr, ip, dv⟩],
         s.recipeIngredients ++ l.map (fun p => ⟨s.nextRecipeId, p.1, p.2⟩),
         s.nextResourceId, s.nextRecipeId + 1⟩ := by
  unfold createCraftingRecipe
  by_cases h1 : (getCraftingRecipeByName s name).isSome
  · rw [if_pos h1]; left; rfl
  · rw [if_neg h1]
    by_cases h2 : ingredientInsertOk s l = true
    · rw [if_neg (by simp [h2])]; right; rfl
    · rw [if_pos (by simp [h2])]; left; rfl

/-- A no-rename recipe row update preserves every name-match test. -/
theorem recRowFun_name_pres (u : RecipeUpdate) (hname : u.name = none) (rid : Nat) (m : String) :
    ∀ a : CraftingRecipe,
      (fun r => decide (r.name = m)) ((fun r => if r.id = rid then applyRecipeUpdate u r else r) a)
        = (fun r => decide (r.name = m)) a := by
  intro a
  by_cases h : a.id = rid <;> simp [h, applyRecipeUpdate, hname]

/-- A recipe row update preserves every id-match test. -/
theorem recRowFun_id_pres (u : RecipeUpdate) (rid k : Nat) :
    ∀ a : CraftingRecipe,
      (fun r => decide (r.id = k)) ((fun r => if r.id = rid then applyRecipeUpdate u r else r) a)
        = (fun r => decide (r.id = k)) a := by
  intro a
  by_cases h : a.id = rid <;> simp [h, applyRecipeUpdate]

/-- One update-strategy recipe record preserves well-formedness, leaves
the resource table untouched, and changes neither the lookup nor the
ingredient rows of any recipe with another name. -/
theorem importRecipeRecord_update_frame (s : Store) (rec : RecipeRecord) (hwf : s.WF) :
    (importRecipeRecord s MergeStrategy.update rec).WF ∧
    (importRecipeRecord s MergeStrategy.update rec).resources = s.resources ∧
    (importRecipeRecord s MergeStrategy.update rec).nextResourceId = s.nextResourceId ∧
    (∀ m : String, ¬ rec.name = some m →
      getCraftingRecipeByName (importRecipeRecord s MergeStrategy.update rec) m
        = getCraftingRecipeByName s m) ∧
    (∀ er ∈ s.recipes, ¬ rec.name = some er.name →
      er ∈ (importRecipeRecord s MergeStrategy.update rec).recipes ∧
      ingredientRowsOf (importRecipeRecord s MergeStrategy.update rec) er.id
        = ingredientRowsOf s er.id) := by
  cases hname : rec.name with
  | none =>
    have hstep : importRecipeRecord s MergeStrategy.update rec = s := by
      simp [importRecipeRecord, hname]
    rw [hstep]
    exact ⟨hwf, rfl, rfl, fun _ _ => rfl, fun er he _ => ⟨he, rfl⟩⟩
  | some n =>
    by_cases hne : n = ""
    · have hstep : importRecipeRecord s MergeStrategy.update rec = s := by
        simp only [importRecipeRecord, hname]
        rw [if_pos hne]
      rw [hstep]
      exact ⟨hwf, rfl, rfl, fun _ _ => rfl, fun er he _ => ⟨he, rfl⟩⟩
    · cases hex : getCraftingRecipeByName s n with
      | some ex =>
        have hexspec := getCraftingRecipeByName_some_spec hwf.2.1 hex
        have hstep : importRecipeRecord s MergeStrategy.update rec
            = (updateCraftingRecipe s ex.id (recipeUpdatePayload rec)
                (some (resolveIngs s (rec.ingredients.getD [])))).2 := by
          simp only [importRecipeRecord, hname]
          rw [if_neg hne]
          simp only [hex]
        rcases updateCraftingRecipe_store s ex.id (recipeUpdatePayload rec)
            (resolveIngs s (rec.ingredients.getD [])) rfl
            (getCraftingRecipeById_isSome_of_mem hexspec.1) with hres | hres
        · rw [hstep, hres]
          exact ⟨hwf, rfl, rfl, fun _ _ => rfl, fun er he _ => ⟨he, rfl⟩⟩
        · rw [hstep, hres]
          refine ⟨WF_recipe_update hwf rfl (hwf.2.2.2.2.2.1 ex hexspec.1) _, rfl, rfl,
            fun m hm => ?_, fun er hermem hername => ?_⟩
          · have hnm : ¬ m = n := fun hh => hm (by rw [hh])
            by_cases hs : hasRecipeScalarUpdate (recipeUpdatePayload rec) = true
            · rw [if_pos hs]
              unfold getCraftingRecipeByName getCraftingRecipeById
              rw [find?_map_of_pred_pres _ _
                (recRowFun_name_pres (recipeUpdatePayload rec) rfl ex.id m) s.recipes]
              cases hfind : s.recipes.find? (fun r => r.name = m) with
              | none => rfl
              | some row =>
                have hrowmem := List.mem_of_find?_eq_some hfind
                have hrowname : row.name = m := by simpa using List.find?_some hfind
                have hrow_ne : ¬ row.id = ex.id := by
                  intro hid
                  have heq : row = ex :=
                    List.inj_on_of_nodup_map hwf.2.1 hrowmem hexspec.1 (by rw [hid])
                  exact hnm (by rw [← hrowname, heq, hexspec.2])
                have hfrow : (if row.id = ex.id
                    then applyRecipeUpdate (recipeUpdatePayload rec) row else row) = row :=
                  if_neg hrow_ne
                simp only [Option.map_some', hfrow]
                rw [find?_map_of_pred_pres _ _
                  (recRowFun_id_pres (recipeUpdatePayload rec) ex.id row.id) s.recipes]
                rw [find?_key_of_mem CraftingRecipe.id hwf.2.1 hrowmem]
                simp [hfrow]
            · rw [if_neg hs]
              exact byName_congr rfl m
          · have hernm : ¬ er.name = n := fun hh => hername (by rw [hh])
            have her_ne : ¬ er.id = ex.id := by
              intro hid
              have heq : er = ex :=
                List.inj_on_of_nodup_map hwf.2.1 hermem hexspec.1 (by rw [hid])
              exact hernm (by rw [heq, hexspec.2])
            constructor
            · by_cases hs : hasRecipeScalarUpdate (recipeUpdatePayload rec) = true
              · rw [if_pos hs]
                exact List.mem_map.mpr ⟨er, hermem, by rw [if_neg her_ne]⟩
              · rw [if_neg hs]
                exact hermem
            · unfold ingredientRowsOf
              rw [List.filter_append, filter_neq_filter her_ne, filter_rows_map_ne her_ne,
                List.append_nil]
      | none =>
        cases ho : rec.output_item_name with
        | none =>
          have hstep : importRecipeRecord s MergeStrategy.update rec = s := by
            simp only [importRecipeRecord, hname]
            rw [if_neg hne]
            simp only [hex, ho]
          rw [hstep]
          exact ⟨hwf, rfl, rfl, fun _ _ => rfl, fun er he _ => ⟨he, rfl⟩⟩
        | some o =>
          by_cases hoe : o = ""
          · have hstep : importRecipeRecord s MergeStrategy.update rec = s := by
              simp only [importRecipeRecord, hname]
              rw [if_neg hne]
              simp only [hex, ho]
              rw [if_pos hoe]
            rw [hstep]
            exact ⟨hwf, rfl, rfl, fun _ _ => rfl, fun er he _ => ⟨he, rfl⟩⟩
          · have hstep : importRecipeRecord s MergeStrategy.update rec
                = (createCraftingRecipe s n o (rec.output_quantity.getD 1) rec.description
                    rec.crafting_time_seconds rec.required_station rec.skill_requirement
                    rec.icon_path (rec.discovered.getD 0)
                    (resolveIngs s (rec.ingredients.getD []))).2 := by
              simp only [importRecipeRecord, hname]
              rw [if_neg hne]
              simp only [hex, ho]
              rw [if_neg hoe]
            rcases createCraftingRecipe_store s n o (rec.output_quantity.getD 1)
                rec.description rec.crafting_time_seconds rec.required_station
                rec.skill_requirement rec.icon_path (rec.discovered.getD 0)
                (resolveIngs s (rec.ingredients.getD [])) with hres | hres
            · rw [hstep, hres]
              exact ⟨hwf, rfl, rfl, fun _ _ => rfl, fun er he _ => ⟨he, rfl⟩⟩
            · rw [hstep, hres]
              refine ⟨WF_append_recipe hwf _ hex, rfl, rfl,
                fun m hm => ?_, fun er hermem hername => ?_⟩
              · have hnm : ¬ n = m := fun hh => hm (by rw [hh])
                have hTop : (s.recipes
                      ++ [(⟨s.nextRecipeId, n, rec.description, o, rec.output_quantity.getD 1,
                          rec.crafting_time_seconds, rec.required_station,
                          rec.skill_requirement, rec.icon_path,
                          rec.discovered.getD 0⟩ : CraftingRecipe)]).find? (fun r => r.name = m)
                    = s.recipes.find? (fun r => r.name = m) := by
                  rw [find?_append]
                  cases hfind : s.recipes.find? (fun r => r.name = m) with
                  | some row => rfl
                  | none =>
                    dsimp only
                    rw [List.find?_cons_of_neg _ (by simp [hnm]), List.find?_nil]
                unfold getCraftingRecipeByName getCraftingRecipeById
                rw [hTop]
                cases hfind : s.recipes.find? (fun r => r.name = m) with
                | none => rfl
                | some row =>
                  dsimp only
                  have hrowmem := List.mem_of_find?_eq_some hfind
                  rw [find?_append, find?_key_of_mem CraftingRecipe.id hwf.2.1 hrowmem]
              · have her_ne : ¬ er.id = s.nextRecipeId :=
                  Nat.ne_of_lt (hwf.2.2.2.2.2.1 er hermem)
                refine ⟨List.mem_append_left _ hermem, ?_⟩
                unfold ingredientRowsOf
                rw [List.filter_append, filter_rows_map_ne her_ne, List.append_nil]

/-- Resource name lookup reads only the resource table. -/
theorem resByName_congr {s1 s2 : Store} (h : s1.resources = s2.resources) (m : String) :
    getResourceByName s1 m = getResourceByName s2 m := by
  unfold getResourceByName
  rw [h]

/-- Ingredient ownership reads only the ingredient table. -/
theorem rows_congr {s1 s2 : Store} (h : s1.recipeIngredients = s2.recipeIngredients)
    (k : Nat) : ingredientRowsOf s1 k = ingredientRowsOf s2 k := by
  unfold ingredientRowsOf
  rw [h]

/-- An update-strategy resource batch preserves well-formedness, never
touches the recipe tables, and changes no resource whose name is absent
from the batch. -/
theorem importResourcesData_update_frame (recs : List ResourceRecord) (s : Store)
    (hwf : s.WF) :
    (importResourcesData recs MergeStrategy.update s).1.WF ∧
    (importResourcesData recs MergeStrategy.update s).1.recipes = s.recipes ∧
    (importResourcesData recs MergeStrategy.update s).1.recipeIngredients
      = s.recipeIngredients ∧
    (importResourcesData recs MergeStrategy.update s).1.nextRecipeId = s.nextRecipeId ∧
    ∀ m : String, m ∉ resourceRecordNames recs →
      getResourceByName (importResourcesData recs MergeStrategy.update s).1 m
        = getResourceByName s m := by
  induction recs generalizing s with
  | nil => exact ⟨hwf, rfl, rfl, rfl, fun _ _ => rfl⟩
  | cons rec rest ih =>
    have hstep := importResourceRecord_update_frame s rec hwf
    have hfold : (importResourcesData (rec :: rest) MergeStrategy.update s).1
        = (importResourcesData rest MergeStrategy.update
            (importResourceRecord s MergeStrategy.update rec).1).1 := rfl
    have ihh := ih (importResourceRecord s MergeStrategy.update rec).1 hstep.1
    rw [hfold]
    refine ⟨ihh.1, ?_, ?_, ?_, fun m hm => ?_⟩
    · rw [ihh.2.1, hstep.2.1]
    · rw [ihh.2.2.1, hstep.2.2.1]
    · rw [ihh.2.2.2.1, hstep.2.2.2.1]
    · have hm1 : ¬ rec.name = some m := fun hcontra =>
        hm (List.mem_filterMap.mpr ⟨rec, List.mem_cons_self _ _, hcontra⟩)
      have hm2 : m ∉ resourceRecordNames rest := by
        intro hcontra
        obtain ⟨r, hr, hrn⟩ := List.mem_filterMap.mp hcontra
        exact hm (List.mem_filterMap.mpr ⟨r, List.mem_cons_of_mem _ hr, hrn⟩)
      rw [ihh.2.2.2.2 m hm2, hstep.2.2.2.2 m hm1]

/-- An update-strategy recipe batch preserves well-formedness, never
touches the resource table, and changes neither the lookup nor the
ingredient rows of any recipe whose name is absent from the batch. -/
theorem importRecipesData_update_frame (recs : List RecipeRecord) (s : Store)
    (hwf : s.WF) :
    (importRecipesData recs MergeStrategy.update s).WF ∧
    (importRecipesData recs MergeStrategy.update s).resources = s.resources ∧
    (importRecipesData recs MergeStrategy.update s).nextResourceId = s.nextResourceId ∧
    (∀ m : String, m ∉ recipeRecordNames recs →
      getCraftingRecipeByName (importRecipesData recs MergeStrategy.update s) m
        = getCraftingRecipeByName s m) ∧
    (∀ er ∈ s.recipes, er.name ∉ recipeRecordNames recs →
      er ∈ (importRecipesData recs MergeStrategy.update s).recipes ∧
      ingredientRowsOf (importRecipesData recs MergeStrategy.update s) er.id
        = ingredientRowsOf s er.id) := by
  induction recs generalizing s with
  | nil => exact ⟨hwf, rfl, rfl, fun _ _ => rfl, fun er he _ => ⟨he, rfl⟩⟩
  | cons rec rest ih =>
    have hstep := importRecipeRecord_update_frame s rec hwf
    have hfold : importRecipesData (rec :: rest) MergeStrategy.update s
        = importRecipesData rest MergeStrategy.update
            (importRecipeRecord s MergeStrategy.update rec) := rfl
    have ihh := ih (importRecipeRecord s MergeStrategy.update rec) hstep.1
    rw [hfold]
    refine ⟨ihh.1, ?_, ?_, fun m hm => ?_, fun er hermem hername => ?_⟩
    · rw [ihh.2.1, hstep.2.1]
    · rw [ihh.2.2.1, hstep.2.2.1]
    · have hm1 : ¬ rec.name = some m := fun hcontra =>
        hm (List.mem_filterMap.mpr ⟨rec, List.mem_cons_self _ _, hcontra⟩)
      have hm2 : m ∉ recipeRecordNames rest := by
        intro hcontra
        obtain ⟨r, hr, hrn⟩ := List.mem_filterMap.mp hcontra
        exact hm (List.mem_filterMap.mpr ⟨r, List.mem_cons_of_mem _ hr, hrn⟩)
      rw [ihh.2.2.2.1 m hm2, hstep.2.2.2.1 m hm1]
    · have hm1 : ¬ rec.name = some er.name := fun hcontra =>
        hername (List.mem_filterMap.mpr ⟨rec, List.mem_cons_self _ _, hcontra⟩)
      have hm2 : er.name ∉ recipeRecordNames rest := by
        intro hcontra
        obtain ⟨r, hr, hrn⟩ := List.mem_filterMap.mp hcontra
        exact hername (List.mem_filterMap.mpr ⟨r, List.mem_cons_of_mem _ hr, hrn⟩)
      have hstep_er := hstep.2.2.2.2 er hermem hm1
      have ih_er := ihh.2.2.2.2 er hstep_er.1 hm2
      exact ⟨ih_er.1, by rw [ih_er.2, hstep_er.2]⟩

/-- Claim C8: importing a batch under strategy update never creates,
deletes or modifies an entity whose name is absent from the batch: the
lookup of any such resource name and recipe name is unchanged, and the
ingredient rows of any recipe with such a name are unchanged. -/
theorem c8_update_scoping (b : ImportBatch) (s : Store) (hwf : s.WF) (m : String)
    (hres : m ∉ resourceRecordNames (b.resources.getD []))
    (hrec : m ∉ recipeRecordNames (b.crafting_recipes.getD [])) :
    getResourceByName (importJson b MergeStrategy.update s).2 m = getResourceByName s m ∧
    getCraftingRecipeByName (importJson b MergeStrategy.update s).2 m
      = getCraftingRecipeByName s m ∧
    ∀ er, getCraftingRecipeByName s m = some er →
      ingredientRowsOf (importJson b MergeStrategy.update s).2 er.id
        = ingredientRowsOf s er.id := by
  obtain ⟨bres, brec⟩ := b
  cases bres with
  | none =>
    cases brec with
    | none => exact ⟨rfl, rfl, fun _ _ => rfl⟩
    | some lrec =>
      have hfold := importRecipesData_update_frame lrec s hwf
      have hred : (importJson ⟨none, some lrec⟩ MergeStrategy.update s).2
          = importRecipesData lrec MergeStrategy.update s := rfl
      rw [hred]
      refine ⟨resByName_congr hfold.2.1 m, hfold.2.2.2.1 m hrec, fun er her => ?_⟩
      have herspec := getCraftingRecipeByName_some_spec hwf.2.1 her
      have hern : er.name ∉ recipeRecordNames lrec := by rw [herspec.2]; exact hrec
      exact (hfold.2.2.2.2 er herspec.1 hern).2
  | some lres =>
    have hfold1 := importResourcesData_update_frame lres s hwf
    cases brec with
    | none =>
      have hred : (importJson ⟨some lres, none⟩ MergeStrategy.update s).2
          = (importResourcesData lres MergeStrategy.update s).1 := rfl
      rw [hred]
      exact ⟨hfold1.2.2.2.2 m hres, byName_congr hfold1.2.1 m,
        fun er _ => rows_congr hfold1.2.2.1 er.id⟩
    | some lrec =>
      have hfold2 := importRecipesData_update_frame lrec
        (importResourcesData lres MergeStrategy.update s).1 hfold1.1
      have hred : (importJson ⟨some lres, some lrec⟩ MergeStrategy.update s).2
          = importRecipesData lrec MergeStrategy.update
              (importResourcesData lres MergeStrategy.update s).1 := rfl
      rw [hred]
      refine ⟨?_, ?_, fun er her => ?_⟩
      · rw [resByName_congr hfold2.2.1 m, hfold1.2.2.2.2 m hres]
      · rw [hfold2.2.2.2.1 m hrec, byName_congr hfold1.2.1 m]
      · have herspec := getCraftingRecipeByName_some_spec hwf.2.1 her
        have hermem1 : er ∈ (importResourcesData lres MergeStrategy.update s).1.recipes := by
          rw [hfold1.2.1]; exact herspec.1
        have hern : er.name ∉ recipeRecordNames lrec := by rw [herspec.2]; exact hrec
        have h2 := (hfold2.2.2.2.2 er hermem1 hern).2
        rw [h2, rows_congr hfold1.2.2.1 er.id]

/-- Claim C8 witness: importing a batch naming Dust and Blade leaves the
unrelated Iron resource and Stillsuit recipe (with its ingredient row)
untouched in the sample store. -/
theorem c8_witness :
    getResourceByName
        (importJson ⟨some [{ name := some "Dust" }],
            some [{ name := some "Blade", output_item_name := some "Blade" }]⟩
          MergeStrategy.update sampleStore).2 "Iron"
      = getResourceByName sampleStore "Iron" ∧
    getCraftingRecipeByName
        (importJson ⟨some [{ name := some "Dust" }],
            some [{ name := some "Blade", output_item_name := some "Blade" }]⟩
          MergeStrategy.update sampleStore).2 "Stillsuit"
      = getCraftingRecipeByName sampleStore "Stillsuit" ∧
    ingredientRowsOf
        (importJson ⟨some [{ name := some "Dust" }],
            some [{ name := some "Blade", output_item_name := some "Blade" }]⟩
          MergeStrategy.update sampleStore).2 0
      = ingredientRowsOf sampleStore 0 := by
  have hIron := c8_update_scoping
    ⟨some [{ name := some "Dust" }],
     some [{ name := some "Blade", output_item_name := some "Blade" }]⟩
    sampleStore (by decide) "Iron" (by decide) (by decide)
  have hStill := c8_update_scoping
    ⟨some [{ name := some "Dust" }],
     some [{ name := some "Blade", output_item_name := some "Blade" }]⟩
    sampleStore (by decide) "Stillsuit" (by decide) (by decide)
  exact ⟨hIron.1, hStill.2.1, hStill.2.2 stillsuit (by decide)⟩

end Dune
